import Mathlib

/-!
# Cluster configuration generator: topology resolution and template rendering

Shallow embedding of the topology part of the generator
(`config_writer/config_writer.go`, `model_generator/model_generator.go`) and of
the template functions of the parser (`parser/parser.go`, `htpasswd.go`), with
theorems about node naming, addressing, role labels, the derived aggregate
strings, the output normalization and the template functions.

Conventions of the embedding

* Go `string` is `String`, a `bytes.Buffer` that is only appended to is the
  `String` of what was written so far.
* Go `int` is `Int`.  The counters of the expansion loops are incremented once
  per node instance, so they stay far below `2^63`; no wrap-around is modelled.
* A loop `for i := 0; i < n; i++` runs over `List.range n.toNat` (no iteration
  when `n ≤ 0`); a `range` loop over a slice is a left fold over the list.
* Go `error` is `Option String` (`none` is `nil`); a `panic` is a separate
  outcome constructor.
-/

set_option autoImplicit false

/-! ## Formatting verbs of `fmt.Sprintf` -/

namespace Fmt

/-- The verb `%d` of `fmt.Sprintf` at an `int`: an optional minus sign and the
decimal digits. -/
def sprintfD (n : Int) : String :=
  if n < 0 then "-" ++ Nat.repr n.natAbs else Nat.repr n.natAbs

/-- The verb `%02x` of `fmt.Sprintf` at an `int`: lowercase hexadecimal digits,
padded with zeros to a minimal width of two; the sign of a negative number
takes one column of the width. -/
def sprintf02x (n : Int) : String :=
  if n < 0 then "-" ++ String.mk (List.leftpad 1 '0' (Nat.toDigits 16 n.natAbs))
  else String.mk (List.leftpad 2 '0' (Nat.toDigits 16 n.natAbs))

/-- The lowercase hexadecimal digit of a value below sixteen. -/
def hexChar (d : Nat) : Char :=
  "0123456789abcdef".data.getD d '*'

end Fmt

/-! ## `config_writer/config_writer.go` -/

namespace ConfigWriter

/-- The node group `config.Node` as `config_writer.go` uses it: the fields the
writer reads. -/
structure Node where
  Name : String
  Number : Int
  Etcd : Bool
  Worker : Bool
  Master : Bool
  Storage : Bool
deriving DecidableEq

/-- The cluster `config.Cluster` as `config_writer.go` uses it. -/
structure Cluster where
  Host : String
  Region : String
  PublicIp : String
  Network : String
  MacPrefix : String
  Nodes : List Node
deriving DecidableEq

/-- The template context `NodeConfiguration`. -/
structure NodeConfiguration where
  Name : String
  Region : String
  Mac : String
  Ip : String
  InitialCluster : String
  EtcdEndpoints : String
  Etcd : Bool
  Schedulable : Bool
  Roles : String
  Nfsd : Bool
  Storage : Bool
  Master : Bool
  ApiServers : String
  Gateway : String
  Dns : String
deriving DecidableEq

/-- `generateMac`: `fmt.Sprintf("%s%02x", prefix, counter + 10)`. -/
def generateMac (pfx : String) (counter : Int) : String :=
  pfx ++ Fmt.sprintf02x (counter + 10)

/-- `generateIp`: `fmt.Sprintf("%s.%d", prefix, counter + 10)`. -/
def generateIp (pfx : String) (counter : Int) : String :=
  pfx ++ "." ++ Fmt.sprintfD (counter + 10)

/-- `generateNodeName`. -/
def generateNodeName (node : Node) (number : Int) : String :=
  if node.Number = 1 then
    node.Name
  else
    node.Name ++ Fmt.sprintfD number

/-- `generateVmNames`: the nested loop appending one name per instance. -/
def generateVmNames (cluster : Cluster) : List String :=
  cluster.Nodes.foldl (fun result node =>
    (List.range node.Number.toNat).foldl (fun result (i : Nat) =>
      let name := generateNodeName node (i : Int)
      result ++ [name]) result) []

/-- `generateRoles`: collect the role names of the set flags, then write them
into the buffer with a comma before every entry but the first. -/
def generateRoles (node : Node) : String :=
  let roles : List String := []
  let roles := if node.Etcd then roles ++ ["etcd"] else roles
  let roles := if node.Worker then roles ++ ["worker"] else roles
  let roles := if node.Master then roles ++ ["master"] else roles
  let roles := if node.Storage then roles ++ ["storage"] else roles
  roles.enum.foldl (fun content (p : Nat × String) =>
    let content := if p.1 ≠ 0 then content ++ "," else content
    let content := content ++ "role="
    content ++ p.2) ""

/-- The local variables of the three aggregate loops: the `first` flag, the
buffer and the counter. -/
structure JoinState where
  first : Bool
  content : String
  counter : Int
deriving DecidableEq

/-- `generateApiServers`. -/
def generateApiServers (cluster : Cluster) : String :=
  (cluster.Nodes.foldl (fun st node =>
    (List.range node.Number.toNat).foldl (fun (st : JoinState) (_ : Nat) =>
      let counter := st.counter + 1
      if node.Master then
        let content := if st.first then st.content else st.content ++ ","
        let ip := generateIp cluster.Network counter
        let content := content ++ "https://"
        let content := content ++ ip
        { first := false, content := content, counter := counter }
      else
        { st with counter := counter }) st)
    { first := true, content := "", counter := 0 }).content

/-- `generateInitialCluster`. -/
def generateInitialCluster (cluster : Cluster) : String :=
  (cluster.Nodes.foldl (fun st node =>
    (List.range node.Number.toNat).foldl (fun (st : JoinState) (i : Nat) =>
      let counter := st.counter + 1
      if node.Etcd then
        let content := if st.first then st.content else st.content ++ ","
        let name := generateNodeName node (i : Int)
        let ip := generateIp cluster.Network counter
        let content := content ++ name
        let content := content ++ "=http://"
        let content := content ++ ip
        let content := content ++ ":2380"
        { first := false, content := content, counter := counter }
      else
        { st with counter := counter }) st)
    { first := true, content := "", counter := 0 }).content

/-- `generateEtcdEndpoints`. -/
def generateEtcdEndpoints (cluster : Cluster) : String :=
  (cluster.Nodes.foldl (fun st node =>
    (List.range node.Number.toNat).foldl (fun (st : JoinState) (_ : Nat) =>
      let counter := st.counter + 1
      if node.Etcd then
        let content := if st.first then st.content else st.content ++ ","
        let ip := generateIp cluster.Network counter
        let content := content ++ "http://"
        let content := content ++ ip
        let content := content ++ ":2379"
        { first := false, content := content, counter := counter }
      else
        { st with counter := counter }) st)
    { first := true, content := "", counter := 0 }).content

/-- `writeNode`: builds the template context of one instance and hands it to
`createClusterConfig`, which does the file-system work and is a parameter
here.  The result is the context built and the error of `createClusterConfig`. -/
def writeNode (createClusterConfig : NodeConfiguration → Option String)
    (cluster : Cluster) (node : Node) (number : Int) (counter : Int) :
    NodeConfiguration × Option String :=
  let name := generateNodeName node number
  let configuration : NodeConfiguration :=
    { Name := name
      Region := cluster.Region
      Mac := generateMac cluster.MacPrefix counter
      Ip := generateIp cluster.Network counter
      InitialCluster := generateInitialCluster cluster
      EtcdEndpoints := generateEtcdEndpoints cluster
      ApiServers := generateApiServers cluster
      Etcd := node.Etcd
      Schedulable := node.Worker
      Roles := generateRoles node
      Nfsd := node.Storage
      Storage := node.Worker
      Master := node.Master
      Gateway := cluster.Network ++ ".1"
      Dns := cluster.Network ++ ".1" }
  (configuration, createClusterConfig configuration)

/-- The state of the loop of `createUserData`: the counter, the contexts handed
to `createClusterConfig` so far, and the error that ended the loop, if any. -/
structure UserDataState where
  counter : Int
  written : List NodeConfiguration
  err : Option String
deriving DecidableEq

/-- `createUserData`: the counter is incremented before each call of
`writeNode`; the first error returns at once, which the fold models by
skipping the remaining iterations. -/
def createUserData (createClusterConfig : NodeConfiguration → Option String)
    (cluster : Cluster) : UserDataState :=
  cluster.Nodes.foldl (fun st node =>
    (List.range node.Number.toNat).foldl (fun (st : UserDataState) (i : Nat) =>
      match st.err with
      | some _ => st
      | none =>
        let counter := st.counter + 1
        let r := writeNode createClusterConfig cluster node (i : Int) counter
        { counter := counter, written := st.written ++ [r.1], err := r.2 }) st)
    { counter := 0, written := [], err := none }

/-- The node instances of a list of groups in expansion order: each group
contributes the instance numbers `0 .. Number - 1`. -/
def instances (nodes : List Node) : List (Node × Nat) :=
  nodes.flatMap (fun node => (List.range node.Number.toNat).map (fun i => (node, i)))

/-- The instances of a list together with the counter value each of them is
processed with, when the counter was `c` before the first one. -/
def numbered : Int → List (Node × Nat) → List (Node × Nat × Int)
  | _, [] => []
  | c, p :: ps => (p.1, p.2, c + 1) :: numbered (c + 1) ps

/-- One iteration of an aggregate loop, with the text it writes for the
instance given as an optional token. -/
def joinStep (tok : Option String) (st : JoinState) : JoinState :=
  match tok with
  | none => { st with counter := st.counter + 1 }
  | some t =>
    { first := false
      content := (if st.first then st.content else st.content ++ ",") ++ t
      counter := st.counter + 1 }

/-- The contexts of all instances of a cluster in expansion order, each built
by `writeNode` with the counter value its instance is processed with. -/
def resolved (cluster : Cluster) : List NodeConfiguration :=
  (numbered 0 (instances cluster.Nodes)).map (fun q =>
    (writeNode (fun _ => none) cluster q.1 (q.2.1 : Int) q.2.2).1)

/-- The end-to-end scenario: a master, three etcd nodes and two workers on the
network `10.0.0` with MAC prefix `00:16:3e:`. -/
def scenario : Cluster :=
  { Host := "host", Region := "region", PublicIp := "1.2.3.4"
    Network := "10.0.0", MacPrefix := "00:16:3e:"
    Nodes :=
      [ { Name := "master", Number := 1, Etcd := false, Worker := false,
          Master := true, Storage := false },
        { Name := "etcd", Number := 3, Etcd := true, Worker := false,
          Master := false, Storage := false },
        { Name := "worker", Number := 2, Etcd := false, Worker := true,
          Master := false, Storage := false } ] }

end ConfigWriter

/-! ## `model_generator/model_generator.go` -/

/-- The outcome of a Go call that either returns a value or panics. -/
inductive Outcome (α : Type) where
  | returned (value : α)
  | aborted (message : String)
deriving DecidableEq

namespace ModelGenerator

/-- Modelled from the spec: the declaration of `model.Size` is not part of the
sources; the generator takes `len` of it and assigns a string literal to it, so
it is a string type. -/
abbrev Size := String

/-- Modelled from the spec: the node group `config.Node` read by
`GenerateModel` (its declaration is not part of the sources); an instance
count, the role flags and the sizing attributes.  `Cores` and `Memory` are
only copied. -/
structure ConfigNode where
  Amount : Int
  Etcd : Bool
  Worker : Bool
  Master : Bool
  Storage : Bool
  Nfsd : Bool
  Cores : Int
  Memory : Int
  NfsSize : Size
  StorageSize : Size
  RootSize : Size
  DockerSize : Size
  KubeletSize : Size
deriving DecidableEq

/-- Modelled from the spec: `config.Host`, an ordered sequence of node
groups. -/
structure ConfigHost where
  Nodes : List ConfigNode
deriving DecidableEq

/-- Modelled from the spec: `config.Cluster` as `GenerateModel` reads it. -/
structure ConfigCluster where
  UpdateRebootStrategy : String
  KubernetesVersion : String
  Region : String
  Hosts : List ConfigHost
deriving DecidableEq

/-- Modelled from the spec: `model.Node`, the fields `GenerateModel` sets (the
declaration is not part of the sources). -/
structure Node where
  Etcd : Bool
  Worker : Bool
  Master : Bool
  Storage : Bool
  Nfsd : Bool
  Cores : Int
  Memory : Int
  NfsSize : Size
  StorageSize : Size
  RootSize : Size
  DockerSize : Size
  KubeletSize : Size
deriving DecidableEq

/-- Modelled from the spec: `model.Host`. -/
structure Host where
  Nodes : List Node
deriving DecidableEq

/-- Modelled from the spec: `model.Cluster`, the fields `GenerateModel` sets. -/
structure Cluster where
  UpdateRebootStrategy : String
  Version : String
  Region : String
  Hosts : List Host
deriving DecidableEq

/-- `K8S_DEFAULT_VERSION`. -/
def K8S_DEFAULT_VERSION : String := "v1.3.5"

/-- `valueOfSize`. -/
def valueOfSize (size : Size) (defaultSize : Size) : Size :=
  if size.length = 0 then defaultSize else size

/-- The message of the `panic` in `GenerateModel`. -/
def conflictMessage : String :=
  "storage and nfsd at the same time is currently not supported"

/-- The node literal built in the body of the instance loop. -/
def nodeOf (configNode : ConfigNode) : Node :=
  { Etcd := configNode.Etcd
    Worker := configNode.Worker
    Master := configNode.Master
    Storage := configNode.Storage
    Nfsd := configNode.Nfsd
    Cores := configNode.Cores
    Memory := configNode.Memory
    NfsSize := configNode.NfsSize
    StorageSize := configNode.StorageSize
    RootSize := valueOfSize configNode.RootSize "10G"
    DockerSize := valueOfSize configNode.DockerSize "10G"
    KubeletSize := valueOfSize configNode.KubeletSize "10G" }

/-- The body of `for i := 0; i < configNode.Amount; i++`, on the pair of the
host under construction and the counter. -/
def instanceStep (configNode : ConfigNode) (acc : Outcome (Host × Int)) :
    Outcome (Host × Int) :=
  match acc with
  | .aborted m => .aborted m
  | .returned (host, counter) =>
    if configNode.Storage && configNode.Nfsd then
      .aborted conflictMessage
    else
      let node := nodeOf configNode
      .returned ({ host with Nodes := host.Nodes ++ [node] }, counter + 1)

/-- The loops over the groups of one host and over the instances of each
group, started with an empty host and the counter at zero. -/
def generateHost (configHost : ConfigHost) : Outcome (Host × Int) :=
  configHost.Nodes.foldl (fun acc configNode =>
    (List.range configNode.Amount.toNat).foldl (fun acc (_ : Nat) =>
      instanceStep configNode acc) acc)
    (.returned ({ Nodes := [] }, 0))

/-- The body of `for _, configHost := range config.Hosts`: the host is built
and appended to the hosts of the cluster. -/
def hostStep (acc : Outcome Cluster) (configHost : ConfigHost) : Outcome Cluster :=
  match acc with
  | .aborted m => .aborted m
  | .returned cluster =>
    match generateHost configHost with
    | .aborted m => .aborted m
    | .returned (host, _) =>
      .returned { cluster with Hosts := cluster.Hosts ++ [host] }

/-- `GenerateModel`: a panic in the loops ends the call, which the folds model
by passing the aborted outcome through the remaining iterations. -/
def GenerateModel (config : ConfigCluster) : Outcome Cluster :=
  let cluster : Cluster :=
    { UpdateRebootStrategy := "", Version := "", Region := "", Hosts := [] }
  let cluster := { cluster with UpdateRebootStrategy := config.UpdateRebootStrategy }
  let cluster :=
    if cluster.UpdateRebootStrategy.length = 0 then
      { cluster with UpdateRebootStrategy := "etcd-lock" }
    else cluster
  let cluster := { cluster with Version := config.KubernetesVersion }
  let cluster :=
    if cluster.Version.length = 0 then
      { cluster with Version := K8S_DEFAULT_VERSION }
    else cluster
  let cluster := { cluster with Region := config.Region }
  config.Hosts.foldl hostStep (.returned cluster)

/-- A group that reaches the `panic`: both flags set and at least one
instance. -/
def conflicting (g : ConfigNode) : Bool :=
  g.Storage && g.Nfsd && decide (1 ≤ g.Amount)

/-- The 1:1 expansion of a configuration: one host per configured host, each
with `Amount` copies of the node of every group, in group order. -/
def expand (config : ConfigCluster) : Cluster :=
  { UpdateRebootStrategy :=
      if config.UpdateRebootStrategy.length = 0 then "etcd-lock"
      else config.UpdateRebootStrategy
    Version :=
      if config.KubernetesVersion.length = 0 then K8S_DEFAULT_VERSION
      else config.KubernetesVersion
    Region := config.Region
    Hosts := config.Hosts.map (fun h =>
      { Nodes := h.Nodes.flatMap (fun g => List.replicate g.Amount.toNat (nodeOf g)) }) }

/-- A group with the given flags and instance count and fixed sizing. -/
def group (amount : Int) (etcd worker master storage nfsd : Bool) (root : Size) :
    ConfigNode :=
  { Amount := amount, Etcd := etcd, Worker := worker, Master := master
    Storage := storage, Nfsd := nfsd, Cores := 2, Memory := 1024
    NfsSize := "", StorageSize := "", RootSize := root, DockerSize := ""
    KubeletSize := "20G" }

/-- A configuration with one host holding the given groups. -/
def oneHost (groups : List ConfigNode) : ConfigCluster :=
  { UpdateRebootStrategy := "", KubernetesVersion := "", Region := "region"
    Hosts := [{ Nodes := groups }] }

end ModelGenerator

/-! ## Errors, dynamic values and the template engine

Further conventions

* A Go `[]byte` is modelled like a Go `string`, as the `String` of its
  content; the conversions `string(b)` and `[]byte(s)` are the identity.
* An `error` of the renderer is a `GoError`, which keeps the message and the
  cause of `errors.Wrapf`; `nil` is `none`.
* An `interface{}` argument of a template function is a `Value`.
-/

/-- An error value: a plain error, or a cause wrapped with a message by
`errors.Wrapf` of `github.com/pkg/errors`. -/
inductive GoError where
  | plain (message : String)
  | withMessage (message : String) (cause : GoError)
deriving DecidableEq

namespace GoError

/-- The method `Error()`: the messages from the outermost wrapping to the root
cause, separated by a colon and a blank. -/
def Error : GoError → String
  | plain message => message
  | withMessage message cause => message ++ ": " ++ cause.Error

/-- The message of the outermost wrapping. -/
def message : GoError → String
  | plain message => message
  | withMessage message _ => message

/-- The root cause, `errors.Cause`. -/
def Cause : GoError → GoError
  | plain message => plain message
  | withMessage _ cause => cause.Cause

end GoError

/-- `errors.Wrapf(err, format, args...)` at an error that is not `nil`, with
the formatted message. -/
def Wrapf (err : GoError) (message : String) : GoError :=
  .withMessage message err

deriving instance DecidableEq for Except

/-- The dynamic value of an `interface{}` argument: `nil`, a string, or a value
of another type, of which only the name of the type matters. -/
inductive Value where
  | nil
  | string (s : String)
  | other (typeName : String)
deriving DecidableEq

/-- The type assertion `val.(string)`, which panics at a value that is not a
string. -/
def assertString : Value → Outcome String
  | .string s => .returned s
  | .nil => .aborted "interface conversion: interface is nil, not string"
  | .other typeName =>
    .aborted ("interface conversion: interface \x7b\x7d is " ++ typeName ++ ", not string")

namespace Text

/-- Whether the pattern occurs in the text as a contiguous part. -/
def containsSub (pattern : List Char) : List Char → Bool
  | [] => pattern.isEmpty
  | c :: cs => pattern.isPrefixOf (c :: cs) || containsSub pattern cs

/-- Whether the text has two newline characters in a row. -/
def hasNewlineRun : List Char → Bool
  | [] => false
  | [_] => false
  | a :: b :: rest => (a == '\n' && b == '\n') || hasNewlineRun (b :: rest)

/-- The pieces of `strings.Split(s, "\n")`: the text between the newline
characters, of which there is one more than newline characters. -/
def splitLines : List Char → List (List Char)
  | [] => [[]]
  | c :: cs =>
    if c = '\n' then [] :: splitLines cs
    else
      match splitLines cs with
      | [] => [[c]]
      | l :: ls => (c :: l) :: ls

end Text

/-- A parsed template of `text/template`: executed on a data context it gives
the rendered text or an error. -/
abbrev Template (Data : Type) := Data → Except GoError String

/-- The template library `text/template`, which is not part of the repository:
`Parse` of a template text gives a parsed template or an error. -/
structure Engine (Data : Type) where
  parse : String → Except GoError (Template Data)

/-- The part of `text/template` on template texts without an action (no
`\x7b\x7b`): such a text is rendered as it is, for every data context. Texts
with actions are outside this engine and are refused. -/
def literalEngine (Data : Type) : Engine Data where
  parse := fun text =>
    if Text.containsSub "\x7b\x7b".data text.data then
      .error (.plain "template: actions are not rendered by the literal engine")
    else .ok (fun _ => .ok text)

namespace ConfigWriter

/-- `regexp.Compile("\n+")` followed by `ReplaceAllString(s, "\n")`, as the run
of the matcher of `\n+` over the text: a match starts at a newline character
outside a match and takes all newline characters that follow; the replacement
is written once at the start of the match, the characters outside the matches
are copied. `inMatch` says that the previous character belonged to a match. -/
def replaceAllNewlines (inMatch : Bool) : List Char → List Char
  | [] => []
  | c :: cs =>
    if c = '\n' then
      if inMatch then replaceAllNewlines true cs
      else '\n' :: replaceAllNewlines true cs
    else c :: replaceAllNewlines false cs

/-- The reference normalization in the words of the specification: each
maximal run of consecutive newline characters is replaced by one newline
character and every other character is kept, in order. -/
def collapseRuns : List Char → List Char
  | [] => []
  | c :: cs =>
    if c = '\n' then '\n' :: collapseRuns (cs.dropWhile (fun d => d = '\n'))
    else c :: collapseRuns cs
termination_by l => l.length
decreasing_by
  all_goals simp_wf
  exact Nat.lt_succ_of_le (List.Sublist.length_le (List.dropWhile_sublist _))

/-- `generateTemplate`: parse the template text, execute it on the data, return
the content of the buffer. -/
def generateTemplate {Data : Type} (engine : Engine Data) (templateContent : String)
    (data : Data) : Except GoError String :=
  match engine.parse templateContent with
  | .error err => .error err
  | .ok tmpl =>
    match tmpl data with
    | .error err => .error err
    | .ok content => .ok content

/-- `generateUserDataContent`: the user-data template, whose literal text is
the parameter `userData`, is rendered by `generateTemplate` and the runs of
newline characters of the result are replaced. -/
def generateUserDataContent (engine : Engine NodeConfiguration) (userData : String)
    (node : NodeConfiguration) : Except GoError String :=
  match generateTemplate engine userData node with
  | .error err => .error err
  | .ok content => .ok (String.mk (replaceAllNewlines false content.data))

end ConfigWriter

/-! ## `htpasswd.go` and `parser/parser.go` -/

namespace Base64

/-- The alphabet of `base64.StdEncoding`. -/
def alphabet : List Char :=
  "ABCDEFGHIJKLMNOPQRSTUVWXYZabcdefghijklmnopqrstuvwxyz0123456789+/".data

/-- The character of a six-bit value. -/
def digit (v : Nat) : Char := alphabet.getD (v % 64) '='

/-- The bytes of the UTF-8 encoding of a character. -/
def utf8Bytes (c : Char) : List Nat :=
  let n := c.toNat
  if n < 128 then [n]
  else if n < 2048 then [192 + n / 64, 128 + n % 64]
  else if n < 65536 then [224 + n / 4096, 128 + n / 64 % 64, 128 + n % 64]
  else [240 + n / 262144, 128 + n / 4096 % 64, 128 + n / 64 % 64, 128 + n % 64]

/-- The standard encoding of a sequence of bytes, with padding. -/
def encodeBytes : List Nat → List Char
  | [] => []
  | [a] => [digit (a / 4), digit (a % 4 * 16), '=', '=']
  | [a, b] => [digit (a / 4), digit (a % 4 * 16 + b / 16), digit (b % 16 * 4), '=']
  | a :: b :: c :: rest =>
    digit (a / 4) :: digit (a % 4 * 16 + b / 16) :: digit (b % 16 * 4 + c / 64)
      :: digit (c % 64) :: encodeBytes rest

/-- `base64.StdEncoding.EncodeToString` at the bytes of a text. -/
def EncodeToString (content : String) : String :=
  String.mk (encodeBytes (content.data.flatMap utf8Bytes))

end Base64

namespace Teamvault

/-- Modelled from the spec: the opaque key `teamvault.Key` of the secret
store, a string type (its declaration is not part of the sources). -/
abbrev Key := String

/-- Modelled from the spec: `teamvault.File`, the file payload of the secret
store; `Content()` gives the decoded bytes or fails. -/
structure File where
  Content : Except GoError String
deriving DecidableEq

/-- Modelled from the spec: the interface `teamvault.Connector` (its
declaration is not part of the sources): given a key, each of the four
lookups returns its value or fails. -/
structure Connector where
  User : Key → Except GoError String
  Password : Key → Except GoError String
  Url : Key → Except GoError String
  File : Key → Except GoError File

/-- The map `htpasswd.HashedPasswords` of the library
`github.com/foomo/htpasswd`, from user names to password hashes. -/
abbrev HashedPasswords := List (String × String)

/-- `HashedPasswords.SetPassword(name, password, htpasswd.HashBCrypt)`: the
password is hashed, which may fail, and the hash is stored under the name. The
salted hash function of the library is the parameter `hashBCrypt`. -/
def SetPassword (hashBCrypt : String → Except GoError String) (pws : HashedPasswords)
    (name password : String) : Except GoError HashedPasswords :=
  match hashBCrypt password with
  | .error err => .error err
  | .ok hash => .ok ((name, hash) :: pws.filter (fun entry => entry.1 ≠ name))

/-- `HashedPasswords.Bytes()`: one line `name:hash` per entry. -/
def Bytes (pws : HashedPasswords) : String :=
  String.join (pws.map (fun entry => entry.1 ++ ":" ++ entry.2 ++ "\n"))

/-- `Htpasswd.Generate`: the password and then the user of the key are looked
up, the password is hashed into a fresh credential set, which is
serialized. -/
def Generate (hashBCrypt : String → Except GoError String) (connector : Connector)
    (key : Key) : Except GoError String :=
  match connector.Password key with
  | .error err => .error err
  | .ok pass =>
    match connector.User key with
    | .error err => .error err
    | .ok user =>
      match SetPassword hashBCrypt [] user pass with
      | .error err => .error err
      | .ok pws => .ok (Bytes pws)

/-- A connector all of whose lookups fail with the given cause. -/
def failing (cause : GoError) : Connector :=
  { User := fun _ => .error cause, Password := fun _ => .error cause
    Url := fun _ => .error cause, File := fun _ => .error cause }

/-- A connector all of whose lookups succeed: the user is the key, the password
and the URL are texts derived from the key, the file has the key as
content. -/
def echo : Connector :=
  { User := fun key => .ok key, Password := fun key => .ok ("pass-" ++ key)
    Url := fun key => .ok ("https://" ++ key), File := fun key => .ok { Content := .ok key } }

end Teamvault

namespace Parser

open Teamvault

/-- What the template functions read from outside the process: the file
system behind `ioutil.ReadFile` and the environment behind `os.Getenv`, which
gives the empty string for a variable that is not set. -/
structure World where
  ReadFile : String → Except GoError String
  Getenv : String → String

/-- The result of a template function: the pair of the value and the error
that the function returns, or a panic. -/
abbrev Result := Outcome (String × Option GoError)

/-- `Parse` of the parser: the template is parsed with the function map and
executed on the data `nil`; the content of the buffer is returned as it
is. -/
def Parse (engine : Engine Unit) (content : String) : Except GoError String :=
  match engine.parse content with
  | .error err => .error err
  | .ok t =>
    match t () with
    | .error err => .error err
    | .ok b => .ok b

/-- The template function `indent`: `strings.Repeat` panics at a negative
count; `strings.Replace` with the count `-1` replaces every newline. -/
def indent (spaces : Int) (v : String) : Outcome String :=
  if spaces < 0 then
    .aborted "strings: negative Repeat count"
  else
    let pad := String.mk (List.replicate spaces.toNat ' ')
    .returned (pad ++ String.mk (v.data.flatMap (fun c =>
      if c = '\n' then ("\n" ++ pad).data else [c])))

/-- The template function `readfile`. -/
def readfile (world : World) (val : Value) : Result :=
  match val with
  | .nil => .returned ("", none)
  | val =>
    match assertString val with
    | .aborted m => .aborted m
    | .returned path =>
      match world.ReadFile path with
      | .error err => .returned ("", some (Wrapf err ("read file " ++ path ++ " failed")))
      | .ok file => .returned (file, none)

/-- The template function `teamvaultUser`. -/
def teamvaultUser (connector : Connector) (val : Value) : Result :=
  match val with
  | .nil => .returned ("", none)
  | val =>
    match assertString val with
    | .aborted m => .aborted m
    | .returned key =>
      match connector.User key with
      | .error err =>
        .returned ("", some (Wrapf err ("get user from teamvault for key " ++ key ++ " failed")))
      | .ok user => .returned (user, none)

/-- The template function `teamvaultPassword`. -/
def teamvaultPassword (connector : Connector) (val : Value) : Result :=
  match val with
  | .nil => .returned ("", none)
  | val =>
    match assertString val with
    | .aborted m => .aborted m
    | .returned key =>
      match connector.Password key with
      | .error err =>
        .returned ("",
          some (Wrapf err ("get password from teamvault for key " ++ key ++ " failed")))
      | .ok pass => .returned (pass, none)

/-- The template function `teamvaultHtpasswd`. -/
def teamvaultHtpasswd (hashBCrypt : String → Except GoError String) (connector : Connector)
    (val : Value) : Result :=
  match val with
  | .nil => .returned ("", none)
  | val =>
    match assertString val with
    | .aborted m => .aborted m
    | .returned key =>
      match Generate hashBCrypt connector key with
      | .error err => .returned ("", some (Wrapf err "generate htpasswd failed"))
      | .ok content => .returned (content, none)

/-- The template function `teamvaultUrl`. -/
def teamvaultUrl (connector : Connector) (val : Value) : Result :=
  match val with
  | .nil => .returned ("", none)
  | val =>
    match assertString val with
    | .aborted m => .aborted m
    | .returned key =>
      match connector.Url key with
      | .error err =>
        .returned ("", some (Wrapf err ("get url from teamvault for key " ++ key ++ " failed")))
      | .ok pass => .returned (pass, none)

/-- The template function `teamvaultFile`. -/
def teamvaultFile (connector : Connector) (val : Value) : Result :=
  match val with
  | .nil => .returned ("", none)
  | val =>
    match assertString val with
    | .aborted m => .aborted m
    | .returned key =>
      match connector.File key with
      | .error err =>
        .returned ("", some (Wrapf err ("get file from teamvault for key " ++ key ++ " failed")))
      | .ok file =>
        match file.Content with
        | .error err =>
          .returned ("",
            some (Wrapf err ("get content from teamvault file for key " ++ key ++ " failed")))
        | .ok content => .returned (content, none)

/-- The template function `teamvaultFileBase64`. -/
def teamvaultFileBase64 (connector : Connector) (val : Value) : Result :=
  match val with
  | .nil => .returned ("", none)
  | val =>
    match assertString val with
    | .aborted m => .aborted m
    | .returned key =>
      match connector.File key with
      | .error err =>
        .returned ("", some (Wrapf err ("get file from teamvault for key " ++ key ++ " failed")))
      | .ok file =>
        match file.Content with
        | .error err =>
          .returned ("",
            some (Wrapf err ("get file from teamvault for key " ++ key ++ " failed")))
        | .ok content => .returned (Base64.EncodeToString content, none)

/-- The template function `env`. -/
def env (world : World) (val : Value) : Result :=
  match val with
  | .nil => .returned ("", none)
  | val =>
    match assertString val with
    | .aborted m => .aborted m
    | .returned name =>
      let value := world.Getenv name
      .returned (value, none)

/-- The template function `base64`. -/
def base64 (val : Value) : Result :=
  match val with
  | .nil => .returned ("", none)
  | val =>
    match assertString val with
    | .aborted m => .aborted m
    | .returned s => .returned (Base64.EncodeToString s, none)

/-- The message of the outermost wrapping of the error of a result, if the
result carries an error. -/
def errorMessage : Result → Option String
  | .returned (_, some err) => some err.message
  | _ => none

/-- A world with one file and one variable. -/
def smallWorld : World :=
  { ReadFile := fun path =>
      if path = "/etc/hostname" then .ok "node1\n" else .error (.plain "no such file")
    Getenv := fun name => if name = "HOME" then "/root" else "" }

end Parser

/-! ## Output paths, validation and the run of the generator -/

namespace Fmt

/-- The value of a decimal or lowercase hexadecimal digit. -/
def digitValue (c : Char) : Nat :=
  if c.toNat < 58 then c.toNat - 48 else c.toNat - 87

/-- The number that a sequence of digits denotes in the given base. -/
def valueOf (base : Nat) (digits : List Char) : Nat :=
  digits.foldl (fun acc c => acc * base + digitValue c) 0

end Fmt

namespace ConfigWriter

/-- The path of the user data that `createClusterConfig` writes for a node:
`fmt.Sprintf("%s/config/openstack/latest/user_data", node.Name)`. -/
def userDataPath (node : NodeConfiguration) : String :=
  node.Name ++ "/config/openstack/latest/user_data"

/-- A cluster with the etcd groups `etcd` of three instances and `etcd1` of one
instance. -/
def clash : Cluster :=
  { Host := "host", Region := "region", PublicIp := "1.2.3.4"
    Network := "10.0.0", MacPrefix := "00:16:3e:"
    Nodes :=
      [ { Name := "etcd", Number := 3, Etcd := true, Worker := false,
          Master := false, Storage := false },
        { Name := "etcd1", Number := 1, Etcd := true, Worker := false,
          Master := false, Storage := false } ] }

end ConfigWriter

namespace Model

/-- Modelled from the spec: `model.Features`, the capability flags handed to
`Validate` (the declaration is not part of the sources; `do` sets `Kvm`). -/
structure Features where
  Kvm : Bool
deriving DecidableEq

/-- The nodes of all hosts of a resolved cluster. -/
def allNodes (cluster : ModelGenerator.Cluster) : List ModelGenerator.Node :=
  cluster.Hosts.flatMap (fun host => host.Nodes)

/-- Modelled from the spec: the error of `Validate` for a cluster of which it is
known whether some node has storage and nfsd together, whether it has a master
node and whether it has an etcd node. The error names every rule that is
violated, so a missing role is always named. -/
def check (conflict hasMaster hasEtcd : Bool) : Option GoError :=
  let violations : List String :=
    (if conflict then ["storage and nfsd at the same time is not supported"] else [])
    ++ (if hasMaster then [] else ["cluster has no master node"])
    ++ (if hasEtcd then [] else ["cluster has no etcd node"])
  if violations.isEmpty then none
  else some (.plain ("validate cluster failed: " ++ String.intercalate ", " violations))

/-- Modelled from the spec: the method `Validate` of the resolved cluster, which
is not part of the sources. It re-checks that no node has storage and nfsd
together, and checks that the cluster has at least one master node and at
least one etcd node. The specification gives no rule that depends on the
features. -/
def Validate (cluster : ModelGenerator.Cluster) (_features : Features) : Option GoError :=
  let nodes := allNodes cluster
  check (nodes.any (fun n => n.Storage && n.Nfsd)) (nodes.any (fun n => n.Master))
    (nodes.any (fun n => n.Etcd))

end Model

namespace Main

/-- What the function `do` of `k8s_generate_configs.go` calls outside the
sources: the flag `config`, the path normalization, the parser of the
configuration, `model_generator.Generate`, the field `Features.Kvm` of the
configuration, and `file.Generate`, which renders and writes the artifacts. -/
structure Collaborators (Config : Type) where
  configPtr : String
  NormalizePath : String → Except GoError String
  ParseConfig : String → Except GoError Config
  Generate : Config → Except GoError ModelGenerator.Cluster
  Kvm : Config → Bool
  fileGenerate : Model.Features → ModelGenerator.Cluster → Option GoError

/-- The result of a run: the error returned and the clusters that were handed
to `file.Generate` for rendering. -/
structure RunResult where
  err : Option GoError
  rendered : List ModelGenerator.Cluster
deriving DecidableEq

/-- The function `do`: every step that fails returns its error at once;
`file.Generate` is called only after `Validate` has returned `nil`. -/
def run {Config : Type} (c : Collaborators Config) : RunResult :=
  let configPath := c.configPtr
  if configPath.length = 0 then
    { err := some (.plain "parameter config missing"), rendered := [] }
  else
    match c.NormalizePath configPath with
    | .error err => { err := some err, rendered := [] }
    | .ok configPath =>
      match c.ParseConfig configPath with
      | .error err => { err := some err, rendered := [] }
      | .ok config =>
        match c.Generate config with
        | .error err => { err := some err, rendered := [] }
        | .ok cluster =>
          let features : Model.Features := { Kvm := c.Kvm config }
          match Model.Validate cluster features with
          | some err => { err := some err, rendered := [] }
          | none =>
            match c.fileGenerate features cluster with
            | some err => { err := some err, rendered := [cluster] }
            | none => { err := none, rendered := [cluster] }

/-- Collaborators that never fail and resolve every configuration to the
given cluster. -/
def always (cluster : ModelGenerator.Cluster) : Collaborators Unit :=
  { configPtr := "cluster.json"
    NormalizePath := fun path => .ok path
    ParseConfig := fun _ => .ok ()
    Generate := fun _ => .ok cluster
    Kvm := fun _ => false
    fileGenerate := fun _ _ => none }

/-- A resolved cluster with one host that holds the nodes of the given
groups. -/
def clusterOf (groups : List ModelGenerator.ConfigNode) : ModelGenerator.Cluster :=
  { UpdateRebootStrategy := "etcd-lock", Version := "v1.3.5", Region := "region"
    Hosts := [{ Nodes := groups.map ModelGenerator.nodeOf }] }

end Main

namespace Dummy

/-- Modelled from the spec: the dummy connector of `manifests/dummy` is not
part of the sources, only its test is. Its `User` returns no error and the
key as the user, which is what `TestUser` checks at the key `key123`. -/
def User (key : Teamvault.Key) : Except GoError String :=
  .ok key

end Dummy

/-! ## Theorems: naming, role labels and addressing in `config_writer.go` -/

namespace ConfigWriter

theorem nested_foldl {σ : Type} (f : σ → Node → Nat → σ) (nodes : List Node) (s : σ) :
    nodes.foldl (fun st node => (List.range node.Number.toNat).foldl (fun st i => f st node i) st) s
      = (instances nodes).foldl (fun st p => f st p.1 p.2) s := by
  induction nodes generalizing s with
  | nil => rfl
  | cons node rest ih =>
    simp only [List.foldl_cons, instances, List.flatMap_cons, List.foldl_append, List.foldl_map]
    exact ih _

theorem numbered_length (c : Int) (l : List (Node × Nat)) :
    (numbered c l).length = l.length := by
  induction l generalizing c with
  | nil => rfl
  | cons p ps ih => simp [numbered, ih]

theorem instances_length (nodes : List Node) :
    (instances nodes).length = (nodes.map (fun n => n.Number.toNat)).sum := by
  induction nodes with
  | nil => rfl
  | cons node rest ih =>
    simp only [instances, List.flatMap_cons, List.length_append, List.length_map,
      List.length_range, List.map_cons, List.sum_cons] at ih ⊢
    rw [ih]

theorem numbered_counters (c : Int) (l : List (Node × Nat)) :
    (numbered c l).map (fun q => q.2.2)
      = (List.range l.length).map (fun (k : Nat) => c + (k : Int) + 1) := by
  induction l generalizing c with
  | nil => rfl
  | cons p ps ih =>
    simp only [numbered, List.map_cons, List.length_cons, List.range_succ_eq_map, ih,
      List.map_map]
    refine congrArg₂ _ (by simp) (List.map_congr_left (fun k _ => ?_))
    simp only [Function.comp_apply, Nat.succ_eq_add_one, Nat.cast_add, Nat.cast_one]
    ring

theorem generateVmNames_eq (cluster : Cluster) :
    generateVmNames cluster
      = (instances cluster.Nodes).map (fun p => generateNodeName p.1 (p.2 : Int)) := by
  unfold generateVmNames
  rw [nested_foldl (fun result node i => result ++ [generateNodeName node (i : Int)])]
  have h : ∀ (l : List (Node × Nat)) (acc : List String),
      l.foldl (fun st p => st ++ [generateNodeName p.1 (p.2 : Int)]) acc
        = acc ++ l.map (fun p => generateNodeName p.1 (p.2 : Int)) := by
    intro l
    induction l with
    | nil => intro acc; simp
    | cons p ps ih => intro acc; simp [ih]
  simpa using h (instances cluster.Nodes) []

/-! ### The loop of `createUserData` -/

/-- The body of the loop of `createUserData` on one instance. -/
theorem createUserData_eq (ccc : NodeConfiguration → Option String) (cluster : Cluster) :
    createUserData ccc cluster
      = (instances cluster.Nodes).foldl (fun (st : UserDataState) p =>
          match st.err with
          | some _ => st
          | none =>
            { counter := st.counter + 1
              written := st.written
                ++ [(writeNode ccc cluster p.1 (p.2 : Int) (st.counter + 1)).1]
              err := (writeNode ccc cluster p.1 (p.2 : Int) (st.counter + 1)).2 })
          { counter := 0, written := [], err := none } := by
  unfold createUserData
  exact nested_foldl (fun (st : UserDataState) node (i : Nat) =>
    match st.err with
    | some _ => st
    | none =>
      { counter := st.counter + 1
        written := st.written ++ [(writeNode ccc cluster node (i : Int) (st.counter + 1)).1]
        err := (writeNode ccc cluster node (i : Int) (st.counter + 1)).2 }) cluster.Nodes _

theorem writeNode_fst (ccc : NodeConfiguration → Option String) (cluster : Cluster)
    (node : Node) (number counter : Int) :
    (writeNode ccc cluster node number counter).1
      = (writeNode (fun _ => none) cluster node number counter).1 := rfl

theorem userData_fold_stopped (ccc : NodeConfiguration → Option String) (cluster : Cluster)
    (l : List (Node × Nat)) (st : UserDataState) (e : String) (h : st.err = some e) :
    l.foldl (fun (st : UserDataState) p =>
        match st.err with
        | some _ => st
        | none =>
          { counter := st.counter + 1
            written := st.written
              ++ [(writeNode ccc cluster p.1 (p.2 : Int) (st.counter + 1)).1]
            err := (writeNode ccc cluster p.1 (p.2 : Int) (st.counter + 1)).2 }) st = st := by
  induction l with
  | nil => rfl
  | cons p ps ih =>
    rw [List.foldl_cons]
    simp only [h]
    exact ih

theorem userData_fold_initial_part (ccc : NodeConfiguration → Option String) (cluster : Cluster)
    (l : List (Node × Nat)) : ∀ st : UserDataState, ∃ m,
    (l.foldl (fun (st : UserDataState) p =>
        match st.err with
        | some _ => st
        | none =>
          { counter := st.counter + 1
            written := st.written
              ++ [(writeNode ccc cluster p.1 (p.2 : Int) (st.counter + 1)).1]
            err := (writeNode ccc cluster p.1 (p.2 : Int) (st.counter + 1)).2 }) st).written
      = st.written ++ ((numbered st.counter l).map (fun q =>
          (writeNode (fun _ => none) cluster q.1 (q.2.1 : Int) q.2.2).1)).take m := by
  induction l with
  | nil => intro st; exact ⟨0, by simp [numbered]⟩
  | cons p ps ih =>
    intro st
    cases h : st.err with
    | some e =>
      refine ⟨0, ?_⟩
      rw [userData_fold_stopped ccc cluster _ st e h]
      simp
    | none =>
      rw [List.foldl_cons]
      simp only [h]
      obtain ⟨m, hm⟩ := ih
        { counter := st.counter + 1
          written := st.written
            ++ [(writeNode ccc cluster p.1 (p.2 : Int) (st.counter + 1)).1]
          err := (writeNode ccc cluster p.1 (p.2 : Int) (st.counter + 1)).2 }
      refine ⟨m + 1, ?_⟩
      rw [hm]
      simp [numbered, writeNode_fst ccc]

theorem userData_fold_ok (cluster : Cluster) (l : List (Node × Nat)) :
    ∀ st : UserDataState, st.err = none →
    l.foldl (fun (st : UserDataState) p =>
        match st.err with
        | some _ => st
        | none =>
          { counter := st.counter + 1
            written := st.written
              ++ [(writeNode (fun _ => none) cluster p.1 (p.2 : Int) (st.counter + 1)).1]
            err := (writeNode (fun _ => none) cluster p.1 (p.2 : Int) (st.counter + 1)).2 }) st
      = { counter := st.counter + l.length
          written := st.written ++ (numbered st.counter l).map (fun q =>
            (writeNode (fun _ => none) cluster q.1 (q.2.1 : Int) q.2.2).1)
          err := none } := by
  induction l with
  | nil => intro st h; cases st; simp_all [numbered]
  | cons p ps ih =>
    intro st h
    rw [List.foldl_cons]
    simp only [h]
    rw [ih _ rfl]
    simp only [numbered, List.length_cons, Nat.cast_add, Nat.cast_one, List.map_cons,
      List.append_assoc, List.singleton_append, UserDataState.mk.injEq, and_true]
    omega

/-- Without a failing write, `createUserData` hands over the contexts of all
instances, in expansion order, the `k`-th with the counter `k + 1`. -/
theorem createUserData_ok (cluster : Cluster) :
    createUserData (fun _ => none) cluster
      = { counter := ((instances cluster.Nodes).length : Int)
          written := resolved cluster
          err := none } := by
  rw [createUserData_eq, userData_fold_ok cluster _ _ rfl]
  simp [resolved]

/-- With any behaviour of the writes, what `createUserData` hands over is an
initial part of the contexts of all instances. -/
theorem createUserData_initial_part (ccc : NodeConfiguration → Option String) (cluster : Cluster) :
    ∃ m, (createUserData ccc cluster).written = (resolved cluster).take m := by
  rw [createUserData_eq]
  obtain ⟨m, hm⟩ := userData_fold_initial_part ccc cluster (instances cluster.Nodes)
    { counter := 0, written := [], err := none }
  exact ⟨m, by simpa [resolved] using hm⟩

theorem resolved_ips (cluster : Cluster) :
    (resolved cluster).map (fun c => c.Ip)
      = (List.range (resolved cluster).length).map
          (fun (k : Nat) => cluster.Network ++ "." ++ Fmt.sprintfD ((k : Int) + 11)) := by
  have h := congrArg (List.map (generateIp cluster.Network))
    (numbered_counters 0 (instances cluster.Nodes))
  simp only [List.map_map] at h
  simp only [resolved, List.map_map, List.length_map, numbered_length]
  refine Eq.trans ?_ (h.trans (List.map_congr_left (fun k _ => ?_)))
  · exact List.map_congr_left (fun q _ => rfl)
  · simp only [Function.comp_apply, generateIp]
    congr 2
    ring

theorem resolved_length (cluster : Cluster) :
    (resolved cluster).length = (cluster.Nodes.map (fun n => n.Number.toNat)).sum := by
  simp [resolved, numbered_length, instances_length]

end ConfigWriter

namespace ConfigWriter

/-! ### The aggregate loops -/

theorem intercalate_go_snoc (s : String) (l : List String) :
    ∀ (acc t : String),
      String.intercalate.go acc s (l ++ [t]) = String.intercalate.go acc s l ++ s ++ t := by
  induction l with
  | nil => intro acc t; rfl
  | cons a as ih => intro acc t; exact ih (acc ++ s ++ a) t

theorem intercalate_snoc (s : String) (ts : List String) (t : String) :
    String.intercalate s (ts ++ [t])
      = if ts.isEmpty then t else String.intercalate s ts ++ s ++ t := by
  cases ts with
  | nil => rfl
  | cons a as => exact intercalate_go_snoc s as a t

theorem join_fold (emit : Node → Nat → Int → Option String) (l : List (Node × Nat)) :
    ∀ (st : JoinState) (ts : List String),
      st.first = ts.isEmpty → st.content = String.intercalate "," ts →
      (l.foldl (fun st p => joinStep (emit p.1 p.2 (st.counter + 1)) st) st).content
        = String.intercalate ","
            (ts ++ (numbered st.counter l).filterMap (fun q => emit q.1 q.2.1 q.2.2)) := by
  induction l with
  | nil => intro st ts _ hc; simpa [numbered] using hc
  | cons p ps ih =>
    intro st ts hf hc
    rw [List.foldl_cons]
    cases he : emit p.1 p.2 (st.counter + 1) with
    | none =>
      have := ih { st with counter := st.counter + 1 } ts hf hc
      simpa [numbered, joinStep, he] using this
    | some t =>
      have hc2 : (if st.first then st.content else st.content ++ ",") ++ t
          = String.intercalate "," (ts ++ [t]) := by
        rw [intercalate_snoc, hf, hc]
        cases ts with
        | nil => simp [String.intercalate]
        | cons a as => simp
      have := ih { first := false
                   content := (if st.first then st.content else st.content ++ ",") ++ t
                   counter := st.counter + 1 } (ts ++ [t]) (by simp) hc2
      simpa [numbered, joinStep, he] using this

/-- An aggregate loop whose body is `joinStep` at a token joins the tokens of
the instances with commas. -/
theorem join_loop (emit : Node → Nat → Int → Option String) (nodes : List Node) :
    ((instances nodes).foldl (fun st p => joinStep (emit p.1 p.2 (st.counter + 1)) st)
        { first := true, content := "", counter := 0 }).content
      = String.intercalate ","
          ((numbered 0 (instances nodes)).filterMap (fun q => emit q.1 q.2.1 q.2.2)) := by
  simpa using join_fold emit (instances nodes)
    { first := true, content := "", counter := 0 } [] rfl rfl

theorem filter_map_resolved {α β : Type} (L : List α) (cfg : α → β) (p : β → Bool)
    (g : β → String) :
    ((L.map cfg).filter p).map g
      = L.filterMap (fun q => if p (cfg q) then some (g (cfg q)) else none) := by
  induction L with
  | nil => rfl
  | cons q qs ih =>
    by_cases h : p (cfg q) = true
    · simp [h, ih]
    · simp [h, ih]

theorem generateEtcdEndpoints_eq (cluster : Cluster) :
    generateEtcdEndpoints cluster
      = String.intercalate "," ((numbered 0 (instances cluster.Nodes)).filterMap (fun q =>
          if q.1.Etcd then some ("http://" ++ generateIp cluster.Network q.2.2 ++ ":2379")
          else none)) := by
  rw [← join_loop (fun node _ c =>
    if node.Etcd then some ("http://" ++ generateIp cluster.Network c ++ ":2379") else none)]
  unfold generateEtcdEndpoints
  rw [nested_foldl (fun (st : JoinState) node (_ : Nat) =>
      if node.Etcd then
        { first := false
          content := (if st.first then st.content else st.content ++ ",") ++ "http://"
            ++ generateIp cluster.Network (st.counter + 1) ++ ":2379"
          counter := st.counter + 1 }
      else
        { st with counter := st.counter + 1 })]
  congr 2
  funext st p
  by_cases h : p.1.Etcd = true
  · simp [h, joinStep, String.append_assoc]
  · simp [h, joinStep]

theorem generateInitialCluster_eq (cluster : Cluster) :
    generateInitialCluster cluster
      = String.intercalate "," ((numbered 0 (instances cluster.Nodes)).filterMap (fun q =>
          if q.1.Etcd then
            some (generateNodeName q.1 (q.2.1 : Int) ++ "=http://"
              ++ generateIp cluster.Network q.2.2 ++ ":2380")
          else none)) := by
  rw [← join_loop (fun node (i : Nat) c =>
    if node.Etcd then
      some (generateNodeName node (i : Int) ++ "=http://"
        ++ generateIp cluster.Network c ++ ":2380")
    else none)]
  unfold generateInitialCluster
  rw [nested_foldl (fun (st : JoinState) node (i : Nat) =>
      if node.Etcd then
        { first := false
          content := (if st.first then st.content else st.content ++ ",")
            ++ generateNodeName node (i : Int) ++ "=http://"
            ++ generateIp cluster.Network (st.counter + 1) ++ ":2380"
          counter := st.counter + 1 }
      else
        { st with counter := st.counter + 1 })]
  congr 2
  funext st p
  by_cases h : p.1.Etcd = true
  · simp [h, joinStep, String.append_assoc]
  · simp [h, joinStep]

theorem generateApiServers_eq (cluster : Cluster) :
    generateApiServers cluster
      = String.intercalate "," ((numbered 0 (instances cluster.Nodes)).filterMap (fun q =>
          if q.1.Master then some ("https://" ++ generateIp cluster.Network q.2.2)
          else none)) := by
  rw [← join_loop (fun node _ c =>
    if node.Master then some ("https://" ++ generateIp cluster.Network c) else none)]
  unfold generateApiServers
  rw [nested_foldl (fun (st : JoinState) node (_ : Nat) =>
      if node.Master then
        { first := false
          content := (if st.first then st.content else st.content ++ ",") ++ "https://"
            ++ generateIp cluster.Network (st.counter + 1)
          counter := st.counter + 1 }
      else
        { st with counter := st.counter + 1 })]
  congr 2
  funext st p
  by_cases h : p.1.Master = true
  · simp [h, joinStep, String.append_assoc]
  · simp [h, joinStep]

end ConfigWriter

namespace ConfigWriter

/-! ### Claims on naming, role labels, addresses and aggregate strings -/

/-- C1 (as the code has it). For every cluster and every behaviour of the
file-system writes, the context that `createUserData`/`writeNode` builds for
the instance at 0-based position `k` of the expansion order has the IP
`<network>.<k + 11>`: the counter is incremented before it is used. Without a
failing write there is one context for every instance of every group. -/
theorem createUserData_ip_positional (ccc : NodeConfiguration → Option String)
    (cluster : Cluster) :
    (createUserData ccc cluster).written.map (fun c => c.Ip)
        = (List.range (createUserData ccc cluster).written.length).map
            (fun (k : Nat) => cluster.Network ++ "." ++ Fmt.sprintfD ((k : Int) + 11))
      ∧ (createUserData (fun _ => none) cluster).written.length
        = (cluster.Nodes.map (fun n => n.Number.toNat)).sum := by
  constructor
  · obtain ⟨m, hm⟩ := createUserData_initial_part ccc cluster
    rw [hm, List.map_take, resolved_ips, List.length_take, ← List.map_take,
      List.take_range]
  · rw [createUserData_ok]
    exact resolved_length cluster

/-- C1, counterexample. In the end-to-end scenario the instances get the
addresses `10.0.0.11 .. 10.0.0.16`; the first one does not get `10.0.0.10`. -/
theorem createUserData_ip_first_not_10 :
    (createUserData (fun _ => none) scenario).written.map (fun c => (c.Name, c.Ip))
        = [("master", "10.0.0.11"), ("etcd0", "10.0.0.12"), ("etcd1", "10.0.0.13"),
           ("etcd2", "10.0.0.14"), ("worker0", "10.0.0.15"), ("worker1", "10.0.0.16")]
      ∧ ¬ (createUserData (fun _ => none) scenario).written.map (fun c => c.Ip)
          = (List.range 6).map
              (fun (k : Nat) => scenario.Network ++ "." ++ Fmt.sprintfD ((k : Int) + 10)) := by
  decide

/-- C2. `generateVmNames` lists, group after group, the single name `base` for
a group with `Number = 1` and otherwise the names `base0, base1, ...,
base(N-1)` for the `N` instances of the group, in that order. -/
theorem generateVmNames_naming (cluster : Cluster) :
    generateVmNames cluster
      = cluster.Nodes.flatMap (fun node =>
          if node.Number = 1 then [node.Name]
          else (List.range node.Number.toNat).map
            (fun (i : Nat) => node.Name ++ Fmt.sprintfD (i : Int))) := by
  rw [generateVmNames_eq, instances, List.map_flatMap]
  congr 1
  funext node
  by_cases h : node.Number = 1
  · simp [h, generateNodeName, List.range_succ]
  · simp [h, generateNodeName, Function.comp_def]

/-- C3. `generateRoles` is the comma-join of the tokens `role=etcd`,
`role=worker`, `role=master`, `role=storage` of the flags that are set, in
that order; with etcd and master set it is `role=etcd,role=master`. -/
theorem generateRoles_label (node : Node) :
    generateRoles node
        = String.intercalate ","
            ((if node.Etcd then ["role=etcd"] else [])
              ++ (if node.Worker then ["role=worker"] else [])
              ++ (if node.Master then ["role=master"] else [])
              ++ (if node.Storage then ["role=storage"] else []))
      ∧ generateRoles { node with Etcd := true, Worker := false, Master := true,
                                  Storage := false } = "role=etcd,role=master" := by
  obtain ⟨name, number, e, w, m, s⟩ := node
  refine ⟨?_, rfl⟩
  cases e <;> cases w <;> cases m <;> cases s <;> rfl

/-- C4. `generateEtcdEndpoints` is the comma-join, in expansion order, of
`http://<ip>:2379` over the contexts with the etcd flag that `createUserData`
builds (through `writeNode`), `<ip>` being the IP of that context. -/
theorem generateEtcdEndpoints_filter_join (cluster : Cluster) :
    generateEtcdEndpoints cluster
      = String.intercalate ","
          (((createUserData (fun _ => none) cluster).written.filter (fun c => c.Etcd)).map
            (fun c => "http://" ++ c.Ip ++ ":2379")) := by
  rw [generateEtcdEndpoints_eq, createUserData_ok]
  simp only [resolved, filter_map_resolved]
  rfl

/-- C5. `generateInitialCluster` is the comma-join, in expansion order, of
`<name>=http://<ip>:2380` over the contexts with the etcd flag that
`createUserData` builds, with the name and the IP of that context. -/
theorem generateInitialCluster_filter_join (cluster : Cluster) :
    generateInitialCluster cluster
      = String.intercalate ","
          (((createUserData (fun _ => none) cluster).written.filter (fun c => c.Etcd)).map
            (fun c => c.Name ++ "=http://" ++ c.Ip ++ ":2380")) := by
  rw [generateInitialCluster_eq, createUserData_ok]
  simp only [resolved, filter_map_resolved]
  rfl

/-- C6 (as the code has it). `generateApiServers` is the comma-join, in
expansion order, of `https://<ip>` over the contexts with the master flag that
`createUserData` builds, with the IP of that context; in the end-to-end
scenario it is `https://10.0.0.11`. -/
theorem generateApiServers_filter_join (cluster : Cluster) :
    generateApiServers cluster
        = String.intercalate ","
            (((createUserData (fun _ => none) cluster).written.filter
                (fun c => c.Master)).map (fun c => "https://" ++ c.Ip))
      ∧ generateApiServers scenario = "https://10.0.0.11" := by
  refine ⟨?_, by decide⟩
  rw [generateApiServers_eq, createUserData_ok]
  simp only [resolved, filter_map_resolved]
  rfl

/-- C6, counterexample. In the end-to-end scenario, with the master as the
first node and the network `10.0.0`, `generateApiServers` is not
`https://10.0.0.10`. -/
theorem generateApiServers_scenario_not_10 :
    generateApiServers scenario ≠ "https://10.0.0.10" := by
  decide

end ConfigWriter

/-! ## Theorems: the MAC suffix -/

namespace Fmt

theorem digitChar_eq_hexChar (d : Nat) (h : d < 16) : Nat.digitChar d = hexChar d := by
  interval_cases d <;> rfl

theorem toDigits16_one (n : Nat) (h : n < 16) :
    Nat.toDigits 16 n = [Nat.digitChar n] := by
  have h0 : n / 16 = 0 := Nat.div_eq_of_lt h
  simp [Nat.toDigits, Nat.toDigitsCore, h0, Nat.mod_eq_of_lt h]

theorem toDigits16_two (n : Nat) (h1 : 16 ≤ n) (h2 : n < 256) :
    Nat.toDigits 16 n = [Nat.digitChar (n / 16), Nat.digitChar (n % 16)] := by
  obtain ⟨m, rfl⟩ : ∃ m, n = m + 1 := ⟨n - 1, by omega⟩
  have ha : (m + 1) / 16 ≠ 0 := by omega
  have hb : (m + 1) / 16 / 16 = 0 := by omega
  have hc : (m + 1) / 16 % 16 = (m + 1) / 16 := by omega
  simp [Nat.toDigits, Nat.toDigitsCore, ha, hb, hc]

theorem toDigitsCore_length_ge (b f n : Nat) (ds : List Char) :
    ds.length ≤ (Nat.toDigitsCore b f n ds).length := by
  induction f generalizing n ds with
  | zero => simp [Nat.toDigitsCore]
  | succ f ih =>
    simp only [Nat.toDigitsCore]
    split
    · simp
    · exact le_trans (by simp) (ih _ _)

theorem toDigits16_long (n : Nat) (h : 256 ≤ n) : 3 ≤ (Nat.toDigits 16 n).length := by
  obtain ⟨m, rfl⟩ : ∃ m, n = m + 2 := ⟨n - 2, by omega⟩
  have ha : (m + 2) / 16 ≠ 0 := by omega
  have hb : (m + 2) / 16 / 16 ≠ 0 := by omega
  simp only [Nat.toDigits, Nat.toDigitsCore, ha, hb, if_false]
  split
  · simp
  · exact le_trans (by simp) (toDigitsCore_length_ge _ _ _ _)

end Fmt


namespace ConfigWriter

/-! ### Groups without instances -/

theorem instances_filter (nodes : List Node) :
    instances (nodes.filter (fun n => decide (1 ≤ n.Number))) = instances nodes := by
  induction nodes with
  | nil => rfl
  | cons n ns ih =>
    unfold instances at ih ⊢
    by_cases h : 1 ≤ n.Number
    · simp [List.filter_cons, h, ih]
    · have hz : n.Number.toNat = 0 := by omega
      simp [List.filter_cons, h, ih, hz]

/-- Removing the groups with a number below one changes nothing in what
`createUserData` does. -/
theorem createUserData_filter (ccc : NodeConfiguration → Option String) (cluster : Cluster) :
    createUserData ccc
        { cluster with Nodes := cluster.Nodes.filter (fun n => decide (1 ≤ n.Number)) }
      = createUserData ccc cluster := by
  have hw : ∀ (node : Node) (number counter : Int),
      writeNode ccc
          { cluster with Nodes := cluster.Nodes.filter (fun n => decide (1 ≤ n.Number)) }
          node number counter
        = writeNode ccc cluster node number counter := by
    intro node number counter
    simp only [writeNode, generateInitialCluster_eq, generateEtcdEndpoints_eq,
      generateApiServers_eq, instances_filter]
  rw [createUserData_eq, createUserData_eq]
  simp only [hw, instances_filter]

end ConfigWriter

/-! ## Theorems: `GenerateModel` -/

namespace ModelGenerator

theorem instance_loop_aborted (g : ConfigNode) (m : String) (l : List Nat) :
    l.foldl (fun acc (_ : Nat) => instanceStep g acc) (.aborted m) = .aborted m := by
  induction l with
  | nil => rfl
  | cons _ _ ih => simpa [instanceStep] using ih

/-- The instance loop of a group that has not both flags set appends its
copies of the node. -/
theorem instance_loop_ok (g : ConfigNode) (h : (g.Storage && g.Nfsd) = false) (n : Nat) :
    ∀ (host : Host) (c : Int),
      (List.range n).foldl (fun acc (_ : Nat) => instanceStep g acc) (.returned (host, c))
        = .returned ({ Nodes := host.Nodes ++ List.replicate n (nodeOf g) }, c + n) := by
  induction n with
  | zero => intro host c; simp
  | succ n ih =>
    intro host c
    rw [List.range_succ, List.foldl_append, ih]
    simp only [List.foldl_cons, List.foldl_nil, instanceStep, h, Bool.false_eq_true, if_false,
      List.append_assoc, Nat.cast_add, Nat.cast_one, add_assoc]
    rw [← List.replicate_succ']

/-- The instance loop of a group with both flags set panics in its first
iteration. -/
theorem instance_loop_conflict (g : ConfigNode) (h : (g.Storage && g.Nfsd) = true) (n : Nat)
    (hn : 1 ≤ n) (host : Host) (c : Int) :
    (List.range n).foldl (fun acc (_ : Nat) => instanceStep g acc) (.returned (host, c))
      = .aborted conflictMessage := by
  obtain ⟨k, rfl⟩ : ∃ k, n = k + 1 := ⟨n - 1, by omega⟩
  have hstep : instanceStep g (.returned (host, c)) = .aborted conflictMessage := by
    simp [instanceStep, h]
  rw [List.range_succ_eq_map, List.foldl_cons, hstep]
  exact instance_loop_aborted g _ _

theorem group_loop_aborted (m : String) (gs : List ConfigNode) :
    gs.foldl (fun acc configNode =>
        (List.range configNode.Amount.toNat).foldl (fun acc (_ : Nat) =>
          instanceStep configNode acc) acc) (.aborted m) = .aborted m := by
  induction gs with
  | nil => rfl
  | cons g gs ih => rw [List.foldl_cons, instance_loop_aborted]; exact ih

theorem conflicting_eq_false (g : ConfigNode) (h : conflicting g = false) :
    (g.Storage && g.Nfsd) = false ∨ g.Amount.toNat = 0 := by
  unfold conflicting at h
  by_cases hf : (g.Storage && g.Nfsd) = true
  · right
    simp only [hf, Bool.true_and, decide_eq_false_iff_not] at h
    omega
  · left; simpa using hf

/-- The group loop of a host: it panics when some group is conflicting, and
otherwise appends the copies of the nodes of all groups in order. -/
theorem group_loop (gs : List ConfigNode) :
    ∀ (host : Host) (c : Int),
      gs.foldl (fun acc configNode =>
          (List.range configNode.Amount.toNat).foldl (fun acc (_ : Nat) =>
            instanceStep configNode acc) acc) (.returned (host, c))
        = if gs.any conflicting then .aborted conflictMessage
          else .returned
            ({ Nodes := host.Nodes
                ++ gs.flatMap (fun g => List.replicate g.Amount.toNat (nodeOf g)) },
             c + ((gs.map (fun g => g.Amount.toNat)).sum : Nat)) := by
  induction gs with
  | nil => intro host c; simp
  | cons g gs ih =>
    intro host c
    rw [List.foldl_cons]
    cases hc : conflicting g with
    | true =>
      have hc2 := hc
      simp only [conflicting, Bool.and_eq_true, decide_eq_true_eq] at hc2
      rw [instance_loop_conflict g (by simp [hc2.1.1, hc2.1.2]) _ (by omega),
        group_loop_aborted]
      simp [hc]
    | false =>
      rcases conflicting_eq_false g hc with hf | hz
      · rw [instance_loop_ok g hf, ih]
        simp only [List.any_cons, hc, Bool.false_or, List.flatMap_cons, List.append_assoc,
          List.map_cons, List.sum_cons, Nat.cast_add, add_assoc]
      · rw [hz, List.range_zero, List.foldl_nil, ih]
        simp only [List.any_cons, hc, Bool.false_or, List.flatMap_cons, hz,
          List.replicate_zero, List.nil_append, List.map_cons, List.sum_cons, zero_add]

theorem generateHost_eq (h : ConfigHost) :
    generateHost h
      = if h.Nodes.any conflicting then .aborted conflictMessage
        else .returned
          ({ Nodes := h.Nodes.flatMap (fun g => List.replicate g.Amount.toNat (nodeOf g)) },
           ((h.Nodes.map (fun g => g.Amount.toNat)).sum : Nat)) := by
  unfold generateHost
  rw [group_loop]
  simp

theorem host_loop_aborted (m : String) (hs : List ConfigHost) :
    hs.foldl hostStep (.aborted m) = .aborted m := by
  induction hs with
  | nil => rfl
  | cons _ _ ih => rw [List.foldl_cons]; exact ih

theorem host_loop (hs : List ConfigHost) :
    ∀ cluster : Cluster,
      hs.foldl hostStep (.returned cluster)
        = if hs.any (fun h => h.Nodes.any conflicting) then .aborted conflictMessage
          else .returned
            { cluster with
              Hosts := cluster.Hosts ++ hs.map (fun h =>
                { Nodes := h.Nodes.flatMap
                    (fun g => List.replicate g.Amount.toNat (nodeOf g)) }) } := by
  induction hs with
  | nil => intro cluster; simp
  | cons h hs ih =>
    intro cluster
    rw [List.foldl_cons]
    cases hc : h.Nodes.any conflicting with
    | true =>
      have hstep : hostStep (.returned cluster) h = .aborted conflictMessage := by
        simp [hostStep, generateHost_eq, hc]
      rw [hstep, host_loop_aborted]
      simp [hc]
    | false =>
      have hstep : hostStep (.returned cluster) h
          = .returned { cluster with
              Hosts := cluster.Hosts
                ++ [{ Nodes := h.Nodes.flatMap
                        (fun g => List.replicate g.Amount.toNat (nodeOf g)) }] } := by
        simp [hostStep, generateHost_eq, hc]
      rw [hstep, ih]
      simp [hc]

/-- `GenerateModel` panics exactly when some group is conflicting, and
otherwise returns the 1:1 expansion of the configuration. -/
theorem GenerateModel_eq (config : ConfigCluster) :
    GenerateModel config
      = if config.Hosts.any (fun h => h.Nodes.any conflicting) then
          .aborted conflictMessage
        else .returned (expand config) := by
  unfold GenerateModel
  simp only []
  rw [host_loop]
  unfold expand
  by_cases h1 : config.UpdateRebootStrategy.length = 0 <;>
    by_cases h2 : config.KubernetesVersion.length = 0 <;>
    simp [h1, h2]

end ModelGenerator

namespace ModelGenerator

theorem any_conflicting_iff (config : ConfigCluster) :
    config.Hosts.any (fun h => h.Nodes.any conflicting) = true
      ↔ ∃ host ∈ config.Hosts, ∃ g ∈ host.Nodes,
          g.Storage = true ∧ g.Nfsd = true ∧ 1 ≤ g.Amount := by
  simp only [List.any_eq_true, conflicting, Bool.and_eq_true, decide_eq_true_eq, and_assoc]

theorem length_eq_zero_iff (s : String) : s.length = 0 ↔ s = "" := by
  obtain ⟨l⟩ := s
  cases l with
  | nil => exact ⟨fun _ => rfl, fun _ => rfl⟩
  | cons a as =>
    constructor
    · intro h; exact absurd h (by simp [String.length])
    · intro h; exact absurd (congrArg String.data h) (by simp)

theorem valueOfSize_eq (size defaultSize : Size) :
    valueOfSize size defaultSize = if size = "" then defaultSize else size := by
  unfold valueOfSize
  by_cases h : size = ""
  · simp [h]
  · simp [h, length_eq_zero_iff]

theorem flatMap_filter_amount (gs : List ConfigNode) :
    (gs.filter (fun g => decide (1 ≤ g.Amount))).flatMap
        (fun g => List.replicate g.Amount.toNat (nodeOf g))
      = gs.flatMap (fun g => List.replicate g.Amount.toNat (nodeOf g)) := by
  induction gs with
  | nil => rfl
  | cons g gs ih =>
    by_cases h : 1 ≤ g.Amount
    · simp [List.filter_cons, h, ih]
    · have hz : g.Amount.toNat = 0 := by omega
      simp [List.filter_cons, h, ih, hz]

theorem any_filter_amount (gs : List ConfigNode) :
    (gs.filter (fun g => decide (1 ≤ g.Amount))).any conflicting = gs.any conflicting := by
  induction gs with
  | nil => rfl
  | cons g gs ih =>
    by_cases h : 1 ≤ g.Amount
    · simp [List.filter_cons, h, ih]
    · simp [List.filter_cons, h, ih, conflicting]

/-- C8 (as the code has it). For every configuration that contains a node
group with `storage` and `nfsd` both set and an amount of at least one,
`GenerateModel` does not return: it panics with the message "storage and nfsd
at the same time is currently not supported". -/
theorem GenerateModel_conflict_aborts (config : ConfigCluster)
    (h : ∃ host ∈ config.Hosts, ∃ g ∈ host.Nodes,
      g.Storage = true ∧ g.Nfsd = true ∧ 1 ≤ g.Amount) :
    GenerateModel config
      = .aborted "storage and nfsd at the same time is currently not supported" := by
  rw [GenerateModel_eq, if_pos ((any_conflicting_iff config).2 h)]
  rfl

/-- C8, witness: a host with a worker group and a storage group of two
instances that also has `nfsd` set. -/
theorem GenerateModel_conflict_aborts_witness :
    (∃ host ∈ (oneHost [group 3 false true false false false "",
                        group 2 false false false true true ""]).Hosts,
        ∃ g ∈ host.Nodes, g.Storage = true ∧ g.Nfsd = true ∧ 1 ≤ g.Amount)
      ∧ GenerateModel (oneHost [group 3 false true false false false "",
                                group 2 false false false true true ""])
          = .aborted "storage and nfsd at the same time is currently not supported" :=
  have h : ∃ host ∈ (oneHost [group 3 false true false false false "",
                        group 2 false false false true true ""]).Hosts,
        ∃ g ∈ host.Nodes, g.Storage = true ∧ g.Nfsd = true ∧ 1 ≤ g.Amount :=
    ⟨_, List.mem_cons_self _ _, _, List.mem_cons_of_mem _ (List.mem_cons_self _ _),
      rfl, rfl, by decide⟩
  ⟨h, GenerateModel_conflict_aborts _ h⟩

/-- C8, counterexample. On a configuration with one group that has `storage`
and `nfsd` set and one instance, `GenerateModel` panics; it returns nothing. -/
theorem GenerateModel_conflict_panics :
    GenerateModel (oneHost [group 1 false false false true true ""])
        = .aborted conflictMessage
      ∧ ∀ cluster : Cluster,
          GenerateModel (oneHost [group 1 false false false true true ""])
            ≠ .returned cluster := by
  have h : GenerateModel (oneHost [group 1 false false false true true ""])
      = .aborted conflictMessage := by decide
  refine ⟨h, fun cluster hc => ?_⟩
  rw [h] at hc
  cases hc

/-- C9 (as the code has it). A group with an amount below one is accepted
without any error and contributes no node: the outcome of `GenerateModel` is
the same as on the configuration from which all such groups are removed, and
so is what `createUserData` writes and returns. -/
theorem GenerateModel_ignores_empty_groups (config : ConfigCluster)
    (ccc : ConfigWriter.NodeConfiguration → Option String) (cluster : ConfigWriter.Cluster) :
    GenerateModel config
        = GenerateModel
            { config with
              Hosts := config.Hosts.map (fun h =>
                { Nodes := h.Nodes.filter (fun g => decide (1 ≤ g.Amount)) }) }
      ∧ ConfigWriter.createUserData ccc cluster
        = ConfigWriter.createUserData ccc
            { cluster with
              Nodes := cluster.Nodes.filter (fun n => decide (1 ≤ n.Number)) } := by
  constructor
  · rw [GenerateModel_eq, GenerateModel_eq]
    simp only [expand, List.any_map, List.map_map, Function.comp_def, any_filter_amount,
      flatMap_filter_amount]
  · exact (ConfigWriter.createUserData_filter ccc cluster).symm

/-- C9, counterexample. A configuration whose only group has the amount `0`,
or `-2`, gives a resolved cluster with one host without nodes, not an error;
`createUserData` on a cluster whose only group has the number `0` writes
nothing and returns no error. -/
theorem GenerateModel_zero_amount_returns :
    GenerateModel (oneHost [group 0 true false false false false ""])
        = .returned { UpdateRebootStrategy := "etcd-lock", Version := "v1.3.5",
                      Region := "region", Hosts := [{ Nodes := [] }] }
      ∧ GenerateModel (oneHost [group (-2) true false false false false ""])
        = .returned { UpdateRebootStrategy := "etcd-lock", Version := "v1.3.5",
                      Region := "region", Hosts := [{ Nodes := [] }] }
      ∧ ConfigWriter.createUserData (fun _ => none)
          { ConfigWriter.scenario with
            Nodes := [{ Name := "etcd", Number := 0, Etcd := true, Worker := false,
                        Master := false, Storage := false }] }
        = { counter := 0, written := [], err := none } := by
  decide

/-- C10. For every configuration in which no group has both `storage` and
`nfsd` set, `GenerateModel` returns a cluster with one host per configured
host, in order, whose nodes are, group after group, `Amount` copies of the
node of the group; that node has the flags, cores, memory, NFS size and
storage size of the group, and as root, docker and kubelet size the value of
the group, or `10G` when that is empty. -/
theorem GenerateModel_expansion (config : ConfigCluster)
    (h : ∀ host ∈ config.Hosts, ∀ g ∈ host.Nodes, ¬ (g.Storage = true ∧ g.Nfsd = true)) :
    GenerateModel config
        = .returned
            { UpdateRebootStrategy :=
                if config.UpdateRebootStrategy.length = 0 then "etcd-lock"
                else config.UpdateRebootStrategy
              Version :=
                if config.KubernetesVersion.length = 0 then "v1.3.5"
                else config.KubernetesVersion
              Region := config.Region
              Hosts := config.Hosts.map (fun host =>
                { Nodes := host.Nodes.flatMap (fun g =>
                    List.replicate g.Amount.toNat (nodeOf g)) }) }
      ∧ ∀ g : ConfigNode,
          nodeOf g
            = { Etcd := g.Etcd, Worker := g.Worker, Master := g.Master
                Storage := g.Storage, Nfsd := g.Nfsd, Cores := g.Cores
                Memory := g.Memory, NfsSize := g.NfsSize
                StorageSize := g.StorageSize
                RootSize := if g.RootSize = "" then "10G" else g.RootSize
                DockerSize := if g.DockerSize = "" then "10G" else g.DockerSize
                KubeletSize := if g.KubeletSize = "" then "10G" else g.KubeletSize } := by
  constructor
  · have hn : ¬ (config.Hosts.any (fun h => h.Nodes.any conflicting) = true) := by
      rw [any_conflicting_iff]
      rintro ⟨host, hh, g, hg, hs, hd, _⟩
      exact h host hh g hg ⟨hs, hd⟩
    rw [GenerateModel_eq, if_neg hn]
    rfl
  · intro g
    simp only [nodeOf, valueOfSize_eq]

/-- C10, witness: a host with two etcd nodes with storage and one master
with a root size of `5G`. -/
theorem GenerateModel_expansion_witness :
    GenerateModel (oneHost [group 2 true false false true false "",
                            group 1 false false true false false "5G"])
      = .returned
          { UpdateRebootStrategy := "etcd-lock", Version := "v1.3.5", Region := "region"
            Hosts := [{ Nodes :=
              [nodeOf (group 2 true false false true false ""),
               nodeOf (group 2 true false false true false ""),
               nodeOf (group 1 false false true false false "5G")] }] }
      ∧ (nodeOf (group 1 false false true false false "5G")).RootSize = "5G"
      ∧ (nodeOf (group 1 false false true false false "5G")).DockerSize = "10G"
      ∧ ∀ host ∈ (oneHost [group 2 true false false true false "",
                           group 1 false false true false false "5G"]).Hosts,
          ∀ g ∈ host.Nodes, ¬ (g.Storage = true ∧ g.Nfsd = true) :=
  ⟨(GenerateModel_expansion (oneHost [group 2 true false false true false "",
        group 1 false false true false false "5G"]) (by decide)).1,
    by decide, by decide, by decide⟩

end ModelGenerator

/-! ## Theorems: output normalization and the render entry points -/

namespace ConfigWriter

theorem replaceAllNewlines_in_match (cs : List Char) :
    replaceAllNewlines true cs
      = replaceAllNewlines false (cs.dropWhile (fun d => d = '\n')) := by
  induction cs with
  | nil => rfl
  | cons c cs ih =>
    by_cases h : c = '\n'
    · simp [replaceAllNewlines, h, List.dropWhile_cons, ih]
    · simp [replaceAllNewlines, h, List.dropWhile_cons]

theorem replaceAllNewlines_eq_collapseRuns (cs : List Char) :
    replaceAllNewlines false cs = collapseRuns cs := by
  generalize hn : cs.length = n
  induction n using Nat.strong_induction_on generalizing cs with
  | _ n ih =>
    cases cs with
    | nil => simp [replaceAllNewlines, collapseRuns]
    | cons c cs =>
      subst hn
      rw [collapseRuns]
      by_cases hc : c = '\n'
      · have hlen : (cs.dropWhile (fun d => d = '\n')).length < (c :: cs).length :=
          Nat.lt_succ_of_le (List.Sublist.length_le (List.dropWhile_sublist _))
        simp only [replaceAllNewlines, hc, if_true, Bool.false_eq_true, if_false]
        rw [replaceAllNewlines_in_match, ih _ hlen _ rfl]
      · simp only [replaceAllNewlines, hc, if_false]
        rw [ih _ (Nat.lt_succ_self _) _ rfl]

theorem hasNewlineRun_cons (a : Char) (l : List Char) :
    Text.hasNewlineRun (a :: l)
      = ((a == '\n' && l.head? == some '\n') || Text.hasNewlineRun l) := by
  cases l with
  | nil => simp [Text.hasNewlineRun]
  | cons b rest => simp [Text.hasNewlineRun]

theorem replaceAllNewlines_no_run (cs : List Char) :
    ∀ b : Bool, Text.hasNewlineRun (replaceAllNewlines b cs) = false
      ∧ (b = true → (replaceAllNewlines b cs).head? ≠ some '\n') := by
  induction cs with
  | nil => intro b; simp [replaceAllNewlines, Text.hasNewlineRun]
  | cons c cs ih =>
    intro b
    by_cases hc : c = '\n'
    · cases b with
      | true =>
        simpa [replaceAllNewlines, hc] using ih true
      | false =>
        simp only [replaceAllNewlines, hc, if_true, Bool.false_eq_true, if_false]
        refine ⟨?_, by simp⟩
        rw [hasNewlineRun_cons, (ih true).1]
        have := (ih true).2 rfl
        simp [this]
    · simp only [replaceAllNewlines, hc, if_false]
      refine ⟨?_, fun _ => by simp [hc]⟩
      rw [hasNewlineRun_cons, (ih false).1]
      simp [hc]

theorem replaceAllNewlines_keeps_others (cs : List Char) :
    ∀ b : Bool, (replaceAllNewlines b cs).filter (fun c => c ≠ '\n')
      = cs.filter (fun c => c ≠ '\n') := by
  induction cs with
  | nil => intro b; rfl
  | cons c cs ih =>
    intro b
    by_cases hc : c = '\n'
    · cases b
      · simpa [replaceAllNewlines, hc] using ih true
      · simpa [replaceAllNewlines, hc] using ih true
    · simpa [replaceAllNewlines, hc] using ih false

/-- C11. The replacement of the matches of `\n+` by one newline character that
`generateUserDataContent` applies equals the reference, run by run: every
maximal run of newline characters becomes one newline character and the other
characters are kept in order; the result has no two newline characters in a
row, and `a\n\n\n\nb` becomes `a\nb`. -/
theorem replaceAllNewlines_reference (s : String) :
    replaceAllNewlines false s.data = collapseRuns s.data
      ∧ (replaceAllNewlines false s.data).filter (fun c => c ≠ '\n')
          = s.data.filter (fun c => c ≠ '\n')
      ∧ Text.hasNewlineRun (replaceAllNewlines false s.data) = false
      ∧ replaceAllNewlines false "a\n\n\n\nb".data = "a\nb".data :=
  ⟨replaceAllNewlines_eq_collapseRuns s.data, replaceAllNewlines_keeps_others s.data false,
    (replaceAllNewlines_no_run s.data false).1, by decide⟩

/-- C12 (as the code has it). Only `generateUserDataContent` normalizes: every
text it returns has no two newline characters in a row. `generateTemplate`
(and with it `writeTemplate` and the generated scripts) and `Parse` of the
parser return the text of the template engine as it is. -/
theorem render_normalization (engine : Engine NodeConfiguration) (userData : String)
    (node : NodeConfiguration) (scripts : Engine Unit) (text : String) :
    (match generateUserDataContent engine userData node with
      | .ok out => Text.hasNewlineRun out.data = false
      | .error _ => True)
      ∧ generateTemplate scripts text ()
          = (match scripts.parse text with
              | .ok tmpl => tmpl ()
              | .error err => .error err)
      ∧ Parser.Parse scripts text
          = (match scripts.parse text with
              | .ok tmpl => tmpl ()
              | .error err => .error err) := by
  refine ⟨?_, ?_, ?_⟩
  · unfold generateUserDataContent
    cases generateTemplate engine userData node with
    | error err => trivial
    | ok content => exact (replaceAllNewlines_no_run content.data false).1
  · unfold generateTemplate
    cases scripts.parse text with
    | error err => rfl
    | ok tmpl =>
      show (match tmpl () with
        | .error err => Except.error err
        | .ok content => .ok content) = tmpl ()
      cases tmpl () <;> rfl
  · unfold Parser.Parse
    cases scripts.parse text with
    | error err => rfl
    | ok tmpl =>
      show (match tmpl () with
        | .error err => Except.error err
        | .ok content => .ok content) = tmpl ()
      cases tmpl () <;> rfl

/-- C12, counterexample. A template text without actions and with blank lines
is returned with its blank lines by `Parse` and by `generateTemplate`. -/
theorem render_keeps_blank_lines :
    Parser.Parse (literalEngine Unit) "a\n\n\nb" = .ok "a\n\n\nb"
      ∧ Text.hasNewlineRun "a\n\n\nb".data = true
      ∧ generateTemplate (literalEngine Unit) "#!/bin/bash\n\nset -o errexit\n" ()
          = .ok "#!/bin/bash\n\nset -o errexit\n"
      ∧ Text.hasNewlineRun "#!/bin/bash\n\nset -o errexit\n".data = true := by
  decide

end ConfigWriter

/-! ## Theorems: the template functions of the parser -/

namespace Parser

open Teamvault

theorem containsSub_of_isPrefixOf (p l : List Char) (h : p.isPrefixOf l = true) :
    Text.containsSub p l = true := by
  cases l with
  | nil => cases p <;> simp_all [Text.containsSub]
  | cons c cs => simp [Text.containsSub, h]

theorem containsSub_append_left (p a l : List Char) (h : Text.containsSub p l = true) :
    Text.containsSub p (a ++ l) = true := by
  induction a with
  | nil => exact h
  | cons c cs ih => simp [Text.containsSub, ih]

/-- A text that is put between two texts occurs in the result. -/
theorem containsSub_between (a key b : String) :
    Text.containsSub key.data (a ++ key ++ b).data = true := by
  rw [String.append_assoc, String.data_append, String.data_append]
  exact containsSub_append_left _ _ _
    (containsSub_of_isPrefixOf _ _ (List.isPrefixOf_iff_prefix.2 (List.prefix_append _ _)))

theorem take_data_append (a b : String) (n : Nat) (h : n ≤ a.length) :
    (a ++ b).data.take n = a.data.take n := by
  rw [String.data_append, List.take_append_of_le_length h]

theorem ne_of_take_ne (s t : String) (n : Nat) (h : s.data.take n ≠ t.data.take n) :
    s ≠ t :=
  fun heq => h (by rw [heq])

/-- C13. Each template function returns the empty string and no error at the
argument `nil`, for every world, connector and hash function. -/
theorem nil_is_empty (world : World) (connector : Connector)
    (hashBCrypt : String → Except GoError String) :
    readfile world .nil = .returned ("", none)
      ∧ teamvaultUser connector .nil = .returned ("", none)
      ∧ teamvaultPassword connector .nil = .returned ("", none)
      ∧ teamvaultUrl connector .nil = .returned ("", none)
      ∧ teamvaultHtpasswd hashBCrypt connector .nil = .returned ("", none)
      ∧ teamvaultFile connector .nil = .returned ("", none)
      ∧ teamvaultFileBase64 connector .nil = .returned ("", none)
      ∧ env world .nil = .returned ("", none)
      ∧ base64 .nil = .returned ("", none) :=
  ⟨rfl, rfl, rfl, rfl, rfl, rfl, rfl, rfl, rfl⟩

/-- C14. At a string key, each of `teamvaultUser`, `teamvaultPassword` and
`teamvaultUrl` returns an error exactly when the lookup of the connector
fails, namely that error as the cause of a wrapping, and otherwise the value
of the connector and no error. -/
theorem lookup_helpers (connector : Connector) (key : String) :
    teamvaultUser connector (.string key)
        = (match connector.User key with
            | .error err =>
              .returned ("", some (.withMessage
                ("get user from teamvault for key " ++ key ++ " failed") err))
            | .ok user => .returned (user, none))
      ∧ teamvaultPassword connector (.string key)
        = (match connector.Password key with
            | .error err =>
              .returned ("", some (.withMessage
                ("get password from teamvault for key " ++ key ++ " failed") err))
            | .ok pass => .returned (pass, none))
      ∧ teamvaultUrl connector (.string key)
        = (match connector.Url key with
            | .error err =>
              .returned ("", some (.withMessage
                ("get url from teamvault for key " ++ key ++ " failed") err))
            | .ok url => .returned (url, none)) := by
  refine ⟨?_, ?_, ?_⟩
  · simp only [teamvaultUser, assertString]
    cases connector.User key <;> rfl
  · simp only [teamvaultPassword, assertString]
    cases connector.Password key <;> rfl
  · simp only [teamvaultUrl, assertString]
    cases connector.Url key <;> rfl

/-- C15, at the failing input. With a connector whose lookups fail with "not
found", `teamvaultHtpasswd` at the key `key123` returns the cause wrapped with
the message "generate htpasswd failed", in which the key does not occur, nor
does it in the text of the error; the messages of the other helpers contain
the key, for every key. -/
theorem teamvaultHtpasswd_error_without_key (hashBCrypt : String → Except GoError String)
    (key : String) (cause : GoError) :
    teamvaultHtpasswd hashBCrypt (failing (.plain "not found")) (.string "key123")
        = .returned ("", some (.withMessage "generate htpasswd failed" (.plain "not found")))
      ∧ Text.containsSub "key123".data "generate htpasswd failed".data = false
      ∧ Text.containsSub "key123".data
          (GoError.withMessage "generate htpasswd failed" (.plain "not found")).Error.data
          = false
      ∧ (∀ m ∈ [errorMessage (teamvaultUser (failing cause) (.string key)),
                errorMessage (teamvaultPassword (failing cause) (.string key)),
                errorMessage (teamvaultUrl (failing cause) (.string key)),
                errorMessage (teamvaultFile (failing cause) (.string key)),
                errorMessage (teamvaultFileBase64 (failing cause) (.string key))],
            ∃ text, m = some text ∧ Text.containsSub key.data text.data = true) := by
  refine ⟨rfl, by decide, by decide, ?_⟩
  intro m hm
  simp only [List.mem_cons, List.mem_singleton, List.not_mem_nil, or_false] at hm
  rcases hm with h | h | h | h | h <;> subst h <;>
    exact ⟨_, rfl, containsSub_between _ key _⟩

/-- C16 (as the code has it). For every key and cause, the wrapping messages of
`teamvaultUser`, `teamvaultPassword`, `teamvaultUrl`, `teamvaultFile` and
`teamvaultHtpasswd` are pairwise different, as they name different
operations; `teamvaultFileBase64` returns the same error as `teamvaultFile`
when the lookup of the file fails. -/
theorem helper_messages (hashBCrypt : String → Except GoError String) (key : String)
    (cause : GoError) :
    List.Pairwise (fun a b => a ≠ b)
        [errorMessage (teamvaultUser (failing cause) (.string key)),
         errorMessage (teamvaultPassword (failing cause) (.string key)),
         errorMessage (teamvaultUrl (failing cause) (.string key)),
         errorMessage (teamvaultFile (failing cause) (.string key)),
         errorMessage (teamvaultHtpasswd hashBCrypt (failing cause) (.string key))]
      ∧ errorMessage (teamvaultUser (failing cause) (.string key))
          = some ("get user from teamvault for key " ++ key ++ " failed")
      ∧ teamvaultFileBase64 (failing cause) (.string key)
          = teamvaultFile (failing cause) (.string key) := by
  have hU : errorMessage (teamvaultUser (failing cause) (.string key))
      = some ("get user from teamvault for key " ++ key ++ " failed") := rfl
  have hP : errorMessage (teamvaultPassword (failing cause) (.string key))
      = some ("get password from teamvault for key " ++ key ++ " failed") := rfl
  have hL : errorMessage (teamvaultUrl (failing cause) (.string key))
      = some ("get url from teamvault for key " ++ key ++ " failed") := rfl
  have hF : errorMessage (teamvaultFile (failing cause) (.string key))
      = some ("get file from teamvault for key " ++ key ++ " failed") := rfl
  have hH : errorMessage (teamvaultHtpasswd hashBCrypt (failing cause) (.string key))
      = some "generate htpasswd failed" := rfl
  have tU : ("get user from teamvault for key " ++ key ++ " failed").data.take 6
      = "get us".data := by
    rw [String.append_assoc, take_data_append _ _ 6 (by decide)]; rfl
  have tP : ("get password from teamvault for key " ++ key ++ " failed").data.take 6
      = "get pa".data := by
    rw [String.append_assoc, take_data_append _ _ 6 (by decide)]; rfl
  have tL : ("get url from teamvault for key " ++ key ++ " failed").data.take 6
      = "get ur".data := by
    rw [String.append_assoc, take_data_append _ _ 6 (by decide)]; rfl
  have tF : ("get file from teamvault for key " ++ key ++ " failed").data.take 6
      = "get fi".data := by
    rw [String.append_assoc, take_data_append _ _ 6 (by decide)]; rfl
  have tH : ("generate htpasswd failed" : String).data.take 6 = "genera".data := rfl
  refine ⟨?_, hU, rfl⟩
  rw [hU, hP, hL, hF, hH]
  simp only [List.pairwise_cons, List.mem_cons, List.mem_singleton, List.not_mem_nil,
    ne_eq, Option.some.injEq, List.Pairwise.nil, and_true, forall_eq_or_imp, forall_eq,
    IsEmpty.forall_iff, implies_true]
  refine ⟨⟨?_, ?_, ?_, ?_⟩, ⟨?_, ?_, ?_⟩, ⟨?_, ?_⟩, ?_⟩ <;>
    refine ne_of_take_ne _ _ 6 ?_ <;>
    simp only [tU, tP, tL, tF, tH] <;> decide

/-- C16, counterexample. When the lookup of the file fails, `teamvaultFile`
and `teamvaultFileBase64` return the same error for the same key. -/
theorem file_helpers_same_error :
    teamvaultFileBase64 (failing (.plain "not found")) (.string "key123")
        = teamvaultFile (failing (.plain "not found")) (.string "key123")
      ∧ errorMessage (teamvaultFileBase64 (failing (.plain "not found")) (.string "key123"))
          = some "get file from teamvault for key key123 failed"
      ∧ errorMessage (teamvaultFile (failing (.plain "not found")) (.string "key123"))
          = some "get file from teamvault for key key123 failed" := by
  decide

/-- C17. At a string key, `teamvaultFileBase64` fails exactly when
`teamvaultFile` fails, and when `teamvaultFile` returns the content,
`teamvaultFileBase64` returns what the template function `base64` returns at
that content, its standard base64 encoding. -/
theorem teamvaultFileBase64_of_file (connector : Connector) (key : String) :
    (match teamvaultFile connector (.string key) with
      | .returned (content, none) =>
        teamvaultFileBase64 connector (.string key) = base64 (.string content)
          ∧ base64 (.string content) = .returned (Base64.EncodeToString content, none)
      | .returned (_, some _) =>
        ∃ err, teamvaultFileBase64 connector (.string key) = .returned ("", some err)
      | .aborted _ => False) := by
  simp only [teamvaultFile, teamvaultFileBase64, assertString]
  cases connector.File key with
  | error err => exact ⟨_, rfl⟩
  | ok file =>
    obtain ⟨content⟩ := file
    cases content with
    | error err => exact ⟨_, rfl⟩
    | ok content => exact ⟨rfl, rfl⟩

end Parser

namespace Parser

/-! ### `indent` and `env` -/

theorem splitLines_ne_nil (cs : List Char) : Text.splitLines cs ≠ [] := by
  cases cs with
  | nil => simp [Text.splitLines]
  | cons c cs =>
    by_cases h : c = '\n'
    · simp [Text.splitLines, h]
    · simp only [Text.splitLines, h, if_false]
      split <;> simp

theorem splitLines_cons_other (c : Char) (cs : List Char) (h : c ≠ '\n') :
    Text.splitLines (c :: cs)
      = (c :: (Text.splitLines cs).headD []) :: (Text.splitLines cs).tail := by
  simp only [Text.splitLines, h, if_false]
  cases hs : Text.splitLines cs with
  | nil => exact absurd hs (splitLines_ne_nil cs)
  | cons l ls => rfl

/-- Splitting behind a text without a newline character: the text goes in
front of the first piece. -/
theorem splitLines_append (q : List Char) (hq : ∀ c ∈ q, c ≠ '\n') (rest : List Char) :
    Text.splitLines (q ++ rest)
      = (q ++ (Text.splitLines rest).headD []) :: (Text.splitLines rest).tail := by
  induction q with
  | nil =>
    cases hs : Text.splitLines rest with
    | nil => exact absurd hs (splitLines_ne_nil rest)
    | cons l ls => simp [hs]
  | cons c q ih =>
    have hc : c ≠ '\n' := hq c (List.mem_cons_self _ _)
    have ih2 := ih (fun d hd => hq d (List.mem_cons_of_mem _ hd))
    rw [List.cons_append, splitLines_cons_other c _ hc, ih2]
    simp

theorem splitLines_indented (pad : List Char) (hp : ∀ c ∈ pad, c ≠ '\n') (cs : List Char) :
    ∀ q : List Char, (∀ c ∈ q, c ≠ '\n') →
      Text.splitLines (q ++ cs.flatMap (fun c => if c = '\n' then '\n' :: pad else [c]))
        = (q ++ (Text.splitLines cs).headD [])
            :: ((Text.splitLines cs).tail).map (fun l => pad ++ l) := by
  induction cs with
  | nil =>
    intro q hq
    have := splitLines_append q hq []
    simpa [Text.splitLines] using this
  | cons c cs ih =>
    intro q hq
    by_cases hc : c = '\n'
    · have h1 := splitLines_append q hq
        ('\n' :: (pad ++ cs.flatMap (fun c => if c = '\n' then '\n' :: pad else [c])))
      have h2 := ih pad hp
      simp only [List.flatMap_cons, hc, if_true, List.cons_append]
      rw [h1]
      simp only [Text.splitLines, if_true, List.headD_cons, List.append_nil, List.tail_cons,
        List.map_cons]
      rw [h2]
      cases hs : Text.splitLines cs with
      | nil => exact absurd hs (splitLines_ne_nil cs)
      | cons l ls => simp
    · have hq2 : ∀ d ∈ q ++ [c], d ≠ '\n' := by
        intro d hd
        rcases List.mem_append.1 hd with hd | hd
        · exact hq d hd
        · simpa [List.mem_singleton.1 hd] using hc
      have h2 := ih (q ++ [c]) hq2
      simp only [List.flatMap_cons, hc, if_false, List.singleton_append]
      rw [show q ++ c :: cs.flatMap (fun c => if c = '\n' then '\n' :: pad else [c])
          = (q ++ [c]) ++ cs.flatMap (fun c => if c = '\n' then '\n' :: pad else [c]) by simp,
        h2, splitLines_cons_other c cs hc]
      simp

/-- C18. For every count `n ≥ 0`, `indent` returns a text; split at the newline
characters it has as many pieces as the text given, and each piece is `n`
blanks followed by the piece of the text given at the same position. -/
theorem indent_lines (n : Nat) (v : String) :
    ∃ r : String, indent (n : Int) v = .returned r
      ∧ Text.splitLines r.data
          = (Text.splitLines v.data).map (fun l => List.replicate n ' ' ++ l)
      ∧ (Text.splitLines r.data).length = (Text.splitLines v.data).length := by
  have hneg : ¬ ((n : Int) < 0) := by omega
  have hpad : ∀ c ∈ List.replicate n ' ', c ≠ '\n' := by
    intro c hc
    rw [List.eq_of_mem_replicate hc]
    decide
  have key : Text.splitLines
      (List.replicate n ' ' ++ v.data.flatMap (fun c =>
        if c = '\n' then '\n' :: List.replicate n ' ' else [c]))
      = (Text.splitLines v.data).map (fun l => List.replicate n ' ' ++ l) := by
    rw [splitLines_indented _ hpad v.data _ hpad]
    cases hs : Text.splitLines v.data with
    | nil => exact absurd hs (splitLines_ne_nil v.data)
    | cons l ls => simp
  refine ⟨_, by rw [indent, if_neg hneg], ?_, ?_⟩
  · simpa [String.data_append] using key
  · have := congrArg List.length key
    simpa [String.data_append] using this

/-- C19 (as the code has it). `indent` returns a text for every count that is
not negative; at a negative count it panics with the message of
`strings.Repeat`. -/
theorem indent_outcome (n : Int) (v : String) :
    (0 ≤ n → ∃ r : String, indent n v = .returned r)
      ∧ (n < 0 → indent n v = .aborted "strings: negative Repeat count") := by
  constructor
  · intro h
    have hneg : ¬ (n < 0) := by omega
    exact ⟨_, by rw [indent, if_neg hneg]⟩
  · intro h
    simp only [indent, h, if_true]

/-- C19, witness. -/
theorem indent_outcome_witness :
    (∃ r : String, indent 0 "a\nb" = .returned r)
      ∧ indent (-3) "a\nb" = .aborted "strings: negative Repeat count" :=
  ⟨(indent_outcome 0 "a\nb").1 (by decide), (indent_outcome (-3) "a\nb").2 (by decide)⟩

/-- C19, counterexample. At the count `-1`, `indent` panics. -/
theorem indent_negative_panics :
    indent (-1) "a" = .aborted "strings: negative Repeat count"
      ∧ ¬ ∃ r : String, indent (-1) "a" = .returned r := by
  refine ⟨by decide, ?_⟩
  rintro ⟨r, hr⟩
  have h : indent (-1) "a" = .aborted "strings: negative Repeat count" := by decide
  rw [h] at hr
  cases hr

/-- C20 (as the code has it). At `nil`, `env` returns the empty string and no
error; at a string it returns what the environment has for that name, which
is the empty string for a variable that is not set, and no error; at a value
of another type the type assertion panics. -/
theorem env_outcome (world : World) :
    env world .nil = .returned ("", none)
      ∧ (∀ name : String, env world (.string name) = .returned (world.Getenv name, none))
      ∧ (∀ typeName : String,
          env world (.other typeName)
            = .aborted ("interface conversion: interface \x7b\x7d is " ++ typeName
                ++ ", not string")) :=
  ⟨rfl, fun _ => rfl, fun _ => rfl⟩

/-- C20, counterexample. At an integer argument, `env` panics and returns
nothing. -/
theorem env_int_panics :
    env smallWorld (.other "int")
        = .aborted "interface conversion: interface \x7b\x7d is int, not string"
      ∧ env smallWorld (.string "HOME") = .returned ("/root", none)
      ∧ env smallWorld (.string "UNSET") = .returned ("", none) := by
  decide

end Parser

/-! ## Theorems: htpasswd generation, validation, the dummy connector -/

namespace Teamvault

/-- C21. `Htpasswd.Generate` looks up the password and the user of the one key
and hashes the password; it returns the error of the first of these three
steps that fails, and no bytes, and when all three succeed it returns the
serialization of the credential set with the single entry of that user and
the hash of that password, the line `user:hash`. -/
theorem Generate_outcome (hashBCrypt : String → Except GoError String)
    (connector : Connector) (key : Key) :
    Generate hashBCrypt connector key
      = (match connector.Password key with
          | .error err => .error err
          | .ok pass =>
            match connector.User key with
            | .error err => .error err
            | .ok user =>
              match hashBCrypt pass with
              | .error err => .error err
              | .ok hash => .ok (Bytes [(user, hash)]))
      ∧ ∀ user hash : String, Bytes [(user, hash)] = user ++ ":" ++ hash ++ "\n" := by
  constructor
  · unfold Generate SetPassword
    cases connector.Password key with
    | error err => rfl
    | ok pass =>
      cases connector.User key with
      | error err => rfl
      | ok user =>
        cases hH : hashBCrypt pass with
        | error err => simp [hH]
        | ok hash => simp [hH]
  · intro user hash
    simp [Bytes, String.join]

end Teamvault

namespace Main

open ModelGenerator

theorem check_no_master (conflict hasEtcd : Bool) :
    ∃ err, Model.check conflict false hasEtcd = some err
      ∧ Text.containsSub "master".data err.Error.data = true := by
  cases conflict <;> cases hasEtcd <;> exact ⟨_, rfl, by decide⟩

theorem check_no_etcd (conflict hasMaster : Bool) :
    ∃ err, Model.check conflict hasMaster false = some err
      ∧ Text.containsSub "etcd".data err.Error.data = true := by
  cases conflict <;> cases hasMaster <;> exact ⟨_, rfl, by decide⟩

theorem check_none (conflict hasMaster hasEtcd : Bool)
    (h : Model.check conflict hasMaster hasEtcd = none) :
    hasMaster = true ∧ hasEtcd = true := by
  revert h
  cases conflict <;> cases hasMaster <;> cases hasEtcd <;> decide

/-- C22. A resolved cluster without a master node, or without an etcd node, is
rejected by `Validate` with a returned error whose text names the missing
role; `do` hands a cluster to `file.Generate` only when it has a master node
and an etcd node, and when `Validate` fails, `do` returns that error and
renders nothing. -/
theorem validate_missing_role (cluster : Cluster) (features : Model.Features)
    (Config : Type) (c : Collaborators Config) :
    ((Model.allNodes cluster).any (fun n => n.Master) = false →
        ∃ err, Model.Validate cluster features = some err
          ∧ Text.containsSub "master".data err.Error.data = true)
      ∧ ((Model.allNodes cluster).any (fun n => n.Etcd) = false →
        ∃ err, Model.Validate cluster features = some err
          ∧ Text.containsSub "etcd".data err.Error.data = true)
      ∧ (∀ r ∈ (run c).rendered,
          (Model.allNodes r).any (fun n => n.Master) = true
            ∧ (Model.allNodes r).any (fun n => n.Etcd) = true)
      ∧ (∀ (path : String) (config : Config) (err : GoError),
          c.configPtr.length ≠ 0 → c.NormalizePath c.configPtr = .ok path →
          c.ParseConfig path = .ok config → c.Generate config = .ok cluster →
          Model.Validate cluster { Kvm := c.Kvm config } = some err →
          run c = { err := some err, rendered := [] }) := by
  refine ⟨?_, ?_, ?_, ?_⟩
  · intro h
    show ∃ err, Model.check _ _ _ = some err ∧ _
    rw [h]
    exact check_no_master _ _
  · intro h
    show ∃ err, Model.check _ _ _ = some err ∧ _
    rw [h]
    exact check_no_etcd _ _
  · intro r hr
    have key : ∀ (cl : Cluster) (f : Model.Features), Model.Validate cl f = none →
        (Model.allNodes cl).any (fun n => n.Master) = true
          ∧ (Model.allNodes cl).any (fun n => n.Etcd) = true :=
      fun cl _ hv => check_none _ _ _ hv
    unfold run at hr
    by_cases h0 : c.configPtr.length = 0
    · simp [h0] at hr
    · cases hn : c.NormalizePath c.configPtr with
      | error e => simp [h0, hn] at hr
      | ok path =>
        cases hp : c.ParseConfig path with
        | error e => simp [h0, hn, hp] at hr
        | ok config =>
          cases hg : c.Generate config with
          | error e => simp [h0, hn, hp, hg] at hr
          | ok cl =>
            cases hv : Model.Validate cl { Kvm := c.Kvm config } with
            | some e => simp [h0, hn, hp, hg, hv] at hr
            | none =>
              have hmem : r = cl := by
                cases hf : c.fileGenerate { Kvm := c.Kvm config } cl <;>
                  simpa [h0, hn, hp, hg, hv, hf] using hr
              subst hmem
              exact key _ _ hv
  · intro path config err h0 hn hp hg hv
    unfold run
    simp only [h0, if_false, hn, hp, hg, hv]

/-- C22, witness: a cluster of etcd nodes only is rejected for its missing
master, and nothing is rendered. -/
theorem validate_missing_role_witness :
    (∃ err, Model.Validate (clusterOf [group 3 true false false false false ""])
          { Kvm := false } = some err
        ∧ Text.containsSub "master".data err.Error.data = true)
      ∧ run (always (clusterOf [group 3 true false false false false ""]))
          = { err := some (.plain "validate cluster failed: cluster has no master node")
              rendered := [] } :=
  ⟨(validate_missing_role (clusterOf [group 3 true false false false false ""])
      { Kvm := false } Unit
      (always (clusterOf [group 3 true false false false false ""]))).1 (by decide),
    (validate_missing_role (clusterOf [group 3 true false false false false ""])
      { Kvm := false } Unit
      (always (clusterOf [group 3 true false false false false ""]))).2.2.2
      "cluster.json" () _ (by decide) rfl rfl rfl (by decide)⟩

end Main

namespace Dummy

/-- C23. For every key, `User` of the dummy connector returns no error and the
user whose text is the key; at `key123` it returns `key123`. -/
theorem User_is_key (key : Teamvault.Key) :
    User key = .ok key ∧ User "key123" = .ok "key123" :=
  ⟨rfl, rfl⟩

end Dummy

namespace ConfigWriter

/-- C24 (as the code has it). The context that `writeNode` builds for an
instance has the etcd and the master flag of the group; its field `Storage`
is the worker flag of the group, and the storage flag of the group is its
field `Nfsd`. -/
theorem writeNode_flags (ccc : NodeConfiguration → Option String) (cluster : Cluster)
    (node : Node) (number counter : Int) :
    (writeNode ccc cluster node number counter).1.Etcd = node.Etcd
      ∧ (writeNode ccc cluster node number counter).1.Master = node.Master
      ∧ (writeNode ccc cluster node number counter).1.Storage = node.Worker
      ∧ (writeNode ccc cluster node number counter).1.Nfsd = node.Storage
      ∧ (writeNode ccc cluster node number counter).1.Schedulable = node.Worker :=
  ⟨rfl, rfl, rfl, rfl, rfl⟩

/-- C24, counterexample. For the worker group of the end-to-end scenario, whose
storage flag is not set, the context has the field `Storage` set. -/
theorem writeNode_storage_is_worker :
    (writeNode (fun _ => none) scenario
        { Name := "worker", Number := 2, Etcd := false, Worker := true,
          Master := false, Storage := false } 0 5).1.Storage = true
      ∧ (writeNode (fun _ => none) scenario
        { Name := "worker", Number := 2, Etcd := false, Worker := true,
          Master := false, Storage := false } 0 5).1.Storage
        ≠ ({ Name := "worker", Number := 2, Etcd := false, Worker := true,
             Master := false, Storage := false } : Node).Storage := by
  decide

end ConfigWriter

namespace ModelGenerator

/-- C25. `GenerateModel` panics if and only if some group has storage and nfsd
both set and an amount of at least one; when there is no such group it returns
the expansion of the configuration, to which a group with an amount of zero
or less contributes no node, whatever its flags are. -/
theorem GenerateModel_aborts_iff (config : ConfigCluster) :
    ((∃ m, GenerateModel config = .aborted m)
        ↔ ∃ host ∈ config.Hosts, ∃ g ∈ host.Nodes,
            g.Storage = true ∧ g.Nfsd = true ∧ 1 ≤ g.Amount)
      ∧ ((¬ ∃ host ∈ config.Hosts, ∃ g ∈ host.Nodes,
            g.Storage = true ∧ g.Nfsd = true ∧ 1 ≤ g.Amount) →
          GenerateModel config = .returned (expand config))
      ∧ (∀ g : ConfigNode, g.Amount ≤ 0 → List.replicate g.Amount.toNat (nodeOf g) = [])
      ∧ GenerateModel (oneHost [group 0 false false false true true "",
                                group (-1) false false false true true ""])
          = .returned { UpdateRebootStrategy := "etcd-lock", Version := "v1.3.5",
                        Region := "region", Hosts := [{ Nodes := [] }] } := by
  refine ⟨?_, ?_, ?_, by decide⟩
  · rw [GenerateModel_eq, ← any_conflicting_iff]
    cases config.Hosts.any (fun h => h.Nodes.any conflicting) <;> simp
  · intro h
    rw [← any_conflicting_iff] at h
    rw [GenerateModel_eq, if_neg h]
  · intro g hg
    have : g.Amount.toNat = 0 := by omega
    rw [this, List.replicate_zero]

end ModelGenerator

/-! ## Theorems: distinct addresses, clashing names -/

namespace Fmt

theorem digitValue_digitChar (d : Nat) (h : d < 16) : digitValue (Nat.digitChar d) = d := by
  interval_cases d <;> rfl

theorem valueOf_append (base : Nat) (l₁ l₂ : List Char) :
    valueOf base (l₁ ++ l₂)
      = l₂.foldl (fun acc c => acc * base + digitValue c) (valueOf base l₁) := by
  simp [valueOf, List.foldl_append]

theorem valueOf_zeros (base j : Nat) : valueOf base (List.replicate j '0') = 0 := by
  induction j with
  | zero => rfl
  | succ j ih =>
    rw [List.replicate_succ', valueOf_append, ih]
    simp [digitValue]

theorem valueOf_leftpad (base n : Nat) (l : List Char) :
    valueOf base (List.leftpad n '0' l) = valueOf base l := by
  rw [List.leftpad, valueOf_append, valueOf_zeros]
  rfl

/-- The digits that `Nat.toDigitsCore` puts in front of the digits it was given
denote the number, when the fuel is larger than the number. -/
theorem toDigitsCore_value (base : Nat) (h2 : 2 ≤ base) (h16 : base ≤ 16) (fuel : Nat) :
    ∀ (n : Nat) (ds : List Char), n < fuel →
      ∃ part, Nat.toDigitsCore base fuel n ds = part ++ ds ∧ valueOf base part = n := by
  induction fuel with
  | zero => intro n ds h; omega
  | succ fuel ih =>
    intro n ds h
    have hmod : n % base < 16 := lt_of_lt_of_le (Nat.mod_lt _ (by omega)) h16
    simp only [Nat.toDigitsCore]
    by_cases h0 : n / base = 0
    · refine ⟨[Nat.digitChar (n % base)], by simp [h0], ?_⟩
      have hlt : n < base := (Nat.div_eq_zero_iff (by omega)).1 h0
      have hd := digitValue_digitChar _ hmod
      rw [Nat.mod_eq_of_lt hlt] at hd ⊢
      simp [valueOf, hd]
    · have hpos : 0 < n := by
        rcases Nat.eq_zero_or_pos n with hz | hz
        · rw [hz] at h0; simp at h0
        · exact hz
      have hlt : n / base < fuel := by
        have := Nat.div_lt_self hpos h2
        omega
      obtain ⟨part, hp, hv⟩ := ih (n / base) (Nat.digitChar (n % base) :: ds) hlt
      refine ⟨part ++ [Nat.digitChar (n % base)], by simp [h0, hp], ?_⟩
      rw [valueOf_append, hv]
      simp only [List.foldl_cons, List.foldl_nil, digitValue_digitChar _ hmod]
      exact Nat.div_add_mod' n base

theorem valueOf_toDigits (base : Nat) (h2 : 2 ≤ base) (h16 : base ≤ 16) (n : Nat) :
    valueOf base (Nat.toDigits base n) = n := by
  obtain ⟨part, hp, hv⟩ := toDigitsCore_value base h2 h16 (n + 1) n [] (Nat.lt_succ_self n)
  rw [Nat.toDigits, hp, List.append_nil, hv]

/-- The decimal rendering of natural numbers is injective. -/
theorem sprintfD_natCast_injective (n m : Nat) (h : sprintfD (n : Int) = sprintfD (m : Int)) :
    n = m := by
  have hn : ¬ ((n : Int) < 0) := by omega
  have hm : ¬ ((m : Int) < 0) := by omega
  simp only [sprintfD, hn, hm, if_false, Int.natAbs_ofNat, Nat.repr] at h
  have hd := congrArg String.data h
  simp only [List.asString] at hd
  have := congrArg (valueOf 10) hd
  rwa [valueOf_toDigits 10 (by decide) (by decide),
    valueOf_toDigits 10 (by decide) (by decide)] at this

/-- The padded hexadecimal rendering of natural numbers is injective. -/
theorem sprintf02x_natCast_injective (n m : Nat)
    (h : sprintf02x (n : Int) = sprintf02x (m : Int)) : n = m := by
  have hn : ¬ ((n : Int) < 0) := by omega
  have hm : ¬ ((m : Int) < 0) := by omega
  simp only [sprintf02x, hn, hm, if_false, Int.natAbs_ofNat] at h
  have hd := congrArg String.data h
  have := congrArg (valueOf 16) hd
  rwa [valueOf_leftpad, valueOf_leftpad, valueOf_toDigits 16 (by decide) (by decide),
    valueOf_toDigits 16 (by decide) (by decide)] at this

theorem append_left_cancel (a s t : String) (h : a ++ s = a ++ t) : s = t := by
  have hd := congrArg String.data h
  rw [String.data_append, String.data_append] at hd
  exact String.ext (List.append_cancel_left hd)

end Fmt

namespace ConfigWriter

theorem resolved_macs (cluster : Cluster) :
    (resolved cluster).map (fun c => c.Mac)
      = (List.range (resolved cluster).length).map
          (fun (k : Nat) => cluster.MacPrefix ++ Fmt.sprintf02x ((k : Int) + 11)) := by
  have h := congrArg (List.map (generateMac cluster.MacPrefix))
    (numbered_counters 0 (instances cluster.Nodes))
  simp only [List.map_map] at h
  simp only [resolved, List.map_map, List.length_map, numbered_length]
  refine Eq.trans ?_ (h.trans (List.map_congr_left (fun k _ => ?_)))
  · exact List.map_congr_left (fun q _ => rfl)
  · simp only [Function.comp_apply, generateMac]
    congr 2
    ring

theorem ip_of_position_injective (network : String) :
    Function.Injective
      (fun (k : Nat) => network ++ "." ++ Fmt.sprintfD ((k : Int) + 11)) := by
  intro i j h
  have h2 := Fmt.append_left_cancel _ _ _ h
  have h3 := Fmt.sprintfD_natCast_injective (i + 11) (j + 11) (by simpa using h2)
  omega

theorem mac_of_position_injective (macPrefix : String) :
    Function.Injective
      (fun (k : Nat) => macPrefix ++ Fmt.sprintf02x ((k : Int) + 11)) := by
  intro i j h
  have h2 := Fmt.append_left_cancel _ _ _ h
  have h3 := Fmt.sprintf02x_natCast_injective (i + 11) (j + 11) (by simpa using h2)
  omega

/-- C26. For every cluster and every behaviour of the file-system writes, the
IPs of the contexts that `createUserData` builds are pairwise different, and
so are their MACs: the instances at two different positions of the expansion
order never get the same address. -/
theorem createUserData_addresses_distinct (ccc : NodeConfiguration → Option String)
    (cluster : Cluster) :
    ((createUserData ccc cluster).written.map (fun c => c.Ip)).Nodup
      ∧ ((createUserData ccc cluster).written.map (fun c => c.Mac)).Nodup := by
  obtain ⟨m, hm⟩ := createUserData_initial_part ccc cluster
  rw [hm]
  constructor
  · rw [List.map_take]
    refine List.Nodup.sublist (List.take_sublist _ _) ?_
    rw [resolved_ips]
    exact List.Nodup.map (ip_of_position_injective _) (List.nodup_range _)
  · rw [List.map_take]
    refine List.Nodup.sublist (List.take_sublist _ _) ?_
    rw [resolved_macs]
    exact List.Nodup.map (mac_of_position_injective _) (List.nodup_range _)

/-- C27. Node names are not unique: in the cluster with the groups `etcd` of
three instances and `etcd1` of one instance, whose base names differ, the
second and the fourth instance are both named `etcd1`; they have different
IPs, the same path of the user data, and the same peer name in the initial
cluster. -/
theorem node_names_clash :
    (clash.Nodes.map (fun n => n.Name)).Nodup
      ∧ generateVmNames clash = ["etcd0", "etcd1", "etcd2", "etcd1"]
      ∧ ¬ (generateVmNames clash).Nodup
      ∧ (createUserData (fun _ => none) clash).written.map
            (fun c => (c.Name, c.Ip, userDataPath c))
          = [("etcd0", "10.0.0.11", "etcd0/config/openstack/latest/user_data"),
             ("etcd1", "10.0.0.12", "etcd1/config/openstack/latest/user_data"),
             ("etcd2", "10.0.0.13", "etcd2/config/openstack/latest/user_data"),
             ("etcd1", "10.0.0.14", "etcd1/config/openstack/latest/user_data")]
      ∧ generateInitialCluster clash
          = "etcd0=http://10.0.0.11:2380,etcd1=http://10.0.0.12:2380,"
            ++ "etcd2=http://10.0.0.13:2380,etcd1=http://10.0.0.14:2380" := by
  decide

end ConfigWriter

/-! ## Theorems: the digits of the MAC suffix -/

namespace Fmt

/-- Every character that `Nat.toDigitsCore` adds in a base of at most sixteen
is a lowercase hexadecimal digit. -/
theorem toDigitsCore_hex (base : Nat) (h1 : 0 < base) (h16 : base ≤ 16) (fuel : Nat) :
    ∀ (n : Nat) (ds : List Char), ∀ ch ∈ Nat.toDigitsCore base fuel n ds,
      ch ∈ ds ∨ ∃ d, d < 16 ∧ ch = hexChar d := by
  induction fuel with
  | zero =>
    intro n ds ch hch
    left
    simpa [Nat.toDigitsCore] using hch
  | succ fuel ih =>
    intro n ds ch hch
    have hmod : n % base < 16 := lt_of_lt_of_le (Nat.mod_lt _ h1) h16
    simp only [Nat.toDigitsCore] at hch
    by_cases h0 : n / base = 0
    · rw [if_pos h0] at hch
      rcases List.mem_cons.1 hch with hc | hc
      · exact Or.inr ⟨n % base, hmod, hc.trans (digitChar_eq_hexChar _ hmod)⟩
      · exact Or.inl hc
    · rw [if_neg h0] at hch
      rcases ih _ _ ch hch with hc | hc
      · rcases List.mem_cons.1 hc with hc | hc
        · exact Or.inr ⟨n % base, hmod, hc.trans (digitChar_eq_hexChar _ hmod)⟩
        · exact Or.inl hc
      · exact Or.inr hc

theorem toDigits16_hex (n : Nat) :
    ∀ ch ∈ Nat.toDigits 16 n, ∃ d, d < 16 ∧ ch = hexChar d := by
  intro ch hch
  rcases toDigitsCore_hex 16 (by decide) (by decide) (n + 1) n [] ch hch with hc | hc
  · exact absurd hc (List.not_mem_nil _)
  · exact hc

/-- The characters of the padded hexadecimal rendering are lowercase
hexadecimal digits. -/
theorem leftpad_hex (n : Nat) :
    ∀ ch ∈ List.leftpad 2 '0' (Nat.toDigits 16 n), ∃ d, d < 16 ∧ ch = hexChar d := by
  intro ch hch
  rw [List.leftpad] at hch
  rcases List.mem_append.1 hch with hc | hc
  · exact ⟨0, by decide, List.eq_of_mem_replicate hc⟩
  · exact toDigits16_hex n ch hc

end Fmt

namespace ConfigWriter

/-- C7 (as the code has it). For a counter `0 ≤ c ≤ 245`, `generateMac` is the
prefix followed by exactly two lowercase hexadecimal digits, the high and the
low digit of `c + 10`; from `c = 246` on, where `c + 10` no longer fits one
byte, the prefix is followed by three or more lowercase hexadecimal digits,
which denote `c + 10`. -/
theorem generateMac_digits (pfx : String) (c : Int) (h0 : 0 ≤ c) :
    (c ≤ 245 →
        generateMac pfx c
          = pfx ++ String.mk [Fmt.hexChar ((c + 10).toNat / 16),
                              Fmt.hexChar ((c + 10).toNat % 16)]
        ∧ (c + 10).toNat / 16 < 16 ∧ (c + 10).toNat % 16 < 16
        ∧ (16 * ((c + 10).toNat / 16) + (c + 10).toNat % 16 : Int) = c + 10)
      ∧ (246 ≤ c → pfx.length + 3 ≤ (generateMac pfx c).length)
      ∧ (246 ≤ c →
          ∃ digits : List Char,
            generateMac pfx c = pfx ++ String.mk digits
              ∧ 3 ≤ digits.length
              ∧ (∀ ch ∈ digits, ∃ d, d < 16 ∧ ch = Fmt.hexChar d)
              ∧ (Fmt.valueOf 16 digits : Int) = c + 10) := by
  obtain ⟨n, rfl⟩ : ∃ n : Nat, c = (n : Int) := ⟨c.toNat, by omega⟩
  have hn : ((n : Int) + 10).toNat = n + 10 := by omega
  have habs : ((n : Int) + 10).natAbs = n + 10 := by omega
  have hpos : ¬ ((n : Int) + 10 < 0) := by omega
  refine ⟨?_, ?_, ?_⟩
  · intro h
    have hle : n ≤ 245 := by omega
    refine ⟨?_, by omega, by omega, by omega⟩
    rw [hn]
    unfold generateMac Fmt.sprintf02x
    rw [if_neg hpos, habs]
    by_cases h16 : n + 10 < 16
    · rw [Fmt.toDigits16_one _ h16, Nat.div_eq_of_lt h16, Nat.mod_eq_of_lt h16,
        Fmt.digitChar_eq_hexChar _ h16]
      rfl
    · rw [Fmt.toDigits16_two _ (by omega) (by omega),
        Fmt.digitChar_eq_hexChar _ (show (n + 10) / 16 < 16 by omega),
        Fmt.digitChar_eq_hexChar _ (show (n + 10) % 16 < 16 by omega)]
      rfl
  · intro h
    have hge : 256 ≤ n + 10 := by omega
    have hlen := Fmt.toDigits16_long _ hge
    unfold generateMac Fmt.sprintf02x
    rw [if_neg hpos, habs, String.length_append]
    have : (String.mk (List.leftpad 2 '0' (Nat.toDigits 16 (n + 10)))).length
        = (List.leftpad 2 '0' (Nat.toDigits 16 (n + 10))).length := rfl
    rw [this, List.leftpad_length]
    omega
  · intro h
    have hge : 256 ≤ n + 10 := by omega
    have hlen := Fmt.toDigits16_long _ hge
    refine ⟨List.leftpad 2 '0' (Nat.toDigits 16 (n + 10)), ?_, ?_, Fmt.leftpad_hex _, ?_⟩
    · unfold generateMac Fmt.sprintf02x
      rw [if_neg hpos, habs]
    · rw [List.leftpad_length]
      omega
    · rw [Fmt.valueOf_leftpad, Fmt.valueOf_toDigits 16 (by decide) (by decide)]
      push_cast
      ring

/-- C7, witness: the counter `5` gives the two digits `0f`, the counter `300`
gives the three digits `136`. -/
theorem generateMac_digits_witness :
    (generateMac "00:16:3e:" 5
        = "00:16:3e:" ++ String.mk [Fmt.hexChar (((5 : Int) + 10).toNat / 16),
                            Fmt.hexChar (((5 : Int) + 10).toNat % 16)]
      ∧ ((5 : Int) + 10).toNat / 16 < 16 ∧ ((5 : Int) + 10).toNat % 16 < 16
      ∧ (16 * (((5 : Int) + 10).toNat / 16) + ((5 : Int) + 10).toNat % 16 : Int) = 5 + 10)
      ∧ (∃ digits : List Char,
          generateMac "00:16:3e:" 300 = "00:16:3e:" ++ String.mk digits
            ∧ 3 ≤ digits.length
            ∧ (∀ ch ∈ digits, ∃ d, d < 16 ∧ ch = Fmt.hexChar d)
            ∧ (Fmt.valueOf 16 digits : Int) = 300 + 10)
      ∧ generateMac "00:16:3e:" 5 = "00:16:3e:0f"
      ∧ generateMac "00:16:3e:" 300 = "00:16:3e:136" :=
  ⟨(generateMac_digits "00:16:3e:" 5 (by decide)).1 (by decide),
    (generateMac_digits "00:16:3e:" 300 (by decide)).2.2 (by decide),
    by decide, by decide⟩

/-- C7, counterexample. The 247th instance of a cluster is processed with the
counter 246, and `generateMac` then appends the three digits `100` to the
prefix. -/
theorem generateMac_three_digits :
    generateMac "00:16:3e:" 246 = "00:16:3e:100"
      ∧ generateMac "00:16:3e:" 246
          ≠ "00:16:3e:" ++ String.mk [Fmt.hexChar (256 / 16), Fmt.hexChar (256 % 16)] := by
  decide

end ConfigWriter
